import Mathlib

/-!
Verification of the mycelia scheduling and state engine.

The definitions below are a shallow embedding of the storage backend
(src/mycelia/services/storage/postgres/instance.py and the stored procedure in
src/mycelia/services/storage/postgres/migrations/versions/797c81c201d2_init.py),
the interactor (src/mycelia/core/interactor.py), the concurrency primitives
(src/mycelia/utils.py) and the argument codec (src/mycelia/utils.py together
with src/mycelia/interface/executor.py).

Identifiers (uuid), byte strings (bytea) and timestamps are modelled as
plain naturals / lists of naturals; SQL tables are lists of rows and each
SQL statement is a pure function on the database value.
-/

namespace Mycelia

abbrev Uuid := Nat
abbrev Bytes := List Nat
abbrev Time := Nat

/-- Row of the sessions table (797c81c201d2_init.py, op.create_table sessions). -/
structure SessionRow where
  id : Uuid
  retention : Option Time
  cancelled_at : Option Time
deriving DecidableEq

/-- Row of the graphs table (797c81c201d2_init.py, op.create_table graphs). -/
structure GraphRow where
  id : Uuid
  session_id : Uuid
  trace_context : Bytes
  result : Option Bytes
deriving DecidableEq

/-- Row of the nodes table (797c81c201d2_init.py, op.create_table nodes).
The pending_dependency_count column is a SMALLINT, so it is modelled as an
integer that the decrement can in principle drive below zero. -/
structure NodeRow where
  id : Uuid
  graph_id : Uuid
  arguments : Bytes
  trace_context : Bytes
  broker_params : Bytes
  executor_params : Bytes
  pending_dependency_count : Int
  created_at : Time
  started_at : Option Time
  finished_at : Option Time
deriving DecidableEq

/-- Row of the dependencies table (797c81c201d2_init.py, op.create_table
dependencies); primary key is the pair (node_id, graph_id). -/
structure DepRow where
  node_id : Uuid
  graph_id : Uuid
  is_data : Bool
deriving DecidableEq

/-- The whole persisted state. -/
structure DB where
  sessions : List SessionRow
  graphs : List GraphRow
  nodes : List NodeRow
  dependencies : List DepRow
deriving DecidableEq

/-- Error surface of the storage backend (src/mycelia/core/errors.py as used
by src/mycelia/services/storage/postgres/instance.py). -/
inductive StorageError where
  | nodeNotFound (id : Uuid)
  | sessionNotFound (id : Uuid)
  | sessionCancelled (id : Uuid)
  | sessionFinished (id : Uuid)
deriving DecidableEq

/-- Well-formedness of the database: primary keys are unique and the foreign
keys declared in the migration hold. -/
def DB.WF (db : DB) : Prop :=
  (db.nodes.map NodeRow.id).Nodup ∧
  (db.graphs.map GraphRow.id).Nodup ∧
  (db.sessions.map SessionRow.id).Nodup ∧
  (∀ n ∈ db.nodes, ∃ gr ∈ db.graphs, gr.id = n.graph_id) ∧
  (∀ gr ∈ db.graphs, ∃ s ∈ db.sessions, s.id = gr.session_id) ∧
  (∀ d ∈ db.dependencies, (∃ n ∈ db.nodes, n.id = d.node_id) ∧
    (∃ gr ∈ db.graphs, gr.id = d.graph_id))

instance (db : DB) : Decidable db.WF := by
  unfold DB.WF; infer_instance

/-- Fan-out row returned by the stored procedure mycelia.complete_node
(columns id, trace_context, broker_params, session_id). -/
structure ReadyNode where
  id : Uuid
  trace_context : Bytes
  broker_params : Bytes
  session_id : Uuid
deriving DecidableEq

/-- True when a dependency edge from node nid to graph g exists; the pair is
the primary key of the dependencies table, so a node is decremented at most
once per completed graph. -/
def hasDepOn (db : DB) (nid g : Uuid) : Bool :=
  db.dependencies.any (fun d => d.node_id == nid && d.graph_id == g)

/-- Join of a node row with the graphs table on nodes.graph_id = graphs.id,
projecting the columns of the fan-out result of mycelia.complete_node. -/
def readyRow (graphs : List GraphRow) (m : NodeRow) : Option ReadyNode :=
  (graphs.find? (fun gr => gr.id == m.graph_id)).map
    (fun gr => { id := m.id, trace_context := m.trace_context,
                 broker_params := m.broker_params, session_id := gr.session_id })

/-- The stored procedure mycelia.complete_node
(797c81c201d2_init.py, lines 81-211):
1. set finished_at on the completed node, raising node.not_found (surfaced by
   PostgresStorage.complete_node as NodeNotFound) when no row matches;
2. update the graph result only where it is still NULL; if that matched,
   decrement pending_dependency_count of every node with a dependency edge on
   the graph and return the decremented rows whose new count is 0;
3. otherwise update the graph result again, unconditionally, and re-select
   the nodes with a dependency edge on the graph whose count is already 0.
A raise rolls the whole function back, so the error case carries no state. -/
def completeNode (db : DB) (completed_node_id : Uuid) (completed_graph_result : Bytes)
    (finished_at : Time) : Except StorageError (DB × List ReadyNode) :=
  match db.nodes.find? (fun n => n.id == completed_node_id) with
  | none => .error (.nodeNotFound completed_node_id)
  | some row =>
    let g := row.graph_id
    let nodes1 := db.nodes.map
      (fun m => if m.id == completed_node_id then { m with finished_at := some finished_at } else m)
    if db.graphs.any (fun gr => gr.id == g && gr.result == none) then
      let graphs1 := db.graphs.map
        (fun gr => if gr.id == g && gr.result == none
          then { gr with result := some completed_graph_result } else gr)
      let nodes2 := nodes1.map
        (fun m => if hasDepOn db m.id g
          then { m with pending_dependency_count := m.pending_dependency_count - 1 } else m)
      let ready := (nodes2.filter
        (fun m => hasDepOn db m.id g && m.pending_dependency_count == 0)).filterMap
          (readyRow graphs1)
      .ok ({ db with nodes := nodes2, graphs := graphs1 }, ready)
    else if db.graphs.any (fun gr => gr.id == g) then
      let graphs1 := db.graphs.map
        (fun gr => if gr.id == g then { gr with result := some completed_graph_result } else gr)
      let ready := (nodes1.filter
        (fun m => hasDepOn db m.id g && m.pending_dependency_count == 0)).filterMap
          (readyRow graphs1)
      .ok ({ db with nodes := nodes1, graphs := graphs1 }, ready)
    else
      .ok ({ db with nodes := nodes1 }, [])

/-- Entity passed to create_node (src/mycelia/core/entities.py, CreatedNode).
dependencies maps a dependency graph id to its is_data flag; it comes from a
python dict, so the graph ids are pairwise distinct. -/
structure CreatedNode where
  id : Uuid
  parent_id : Option Uuid
  graph_id : Uuid
  arguments : Bytes
  dependencies : List (Uuid × Bool)
  trace_context : Bytes
  broker_params : Bytes
  executor_params : Bytes
deriving DecidableEq

/-- Entity passed to create_node (src/mycelia/core/entities.py, CreatedGraph). -/
structure CreatedGraph where
  id : Uuid
  session_id : Uuid
  trace_context : Bytes
deriving DecidableEq

/-- Entity passed to create_node (src/mycelia/core/entities.py, CreatedSession). -/
structure CreatedSession where
  id : Uuid
deriving DecidableEq

/-- The pending_dependencies CTE of PostgresStorage.create_node: the rows of
the graphs table joined with the freshly inserted dependency edges, restricted
to graphs whose result is still NULL, ordered by graph id ascending (the
ORDER BY ... FOR UPDATE that fixes the locking order). The CTE sees the
statement snapshot, hence the join is against the graphs already present. -/
def pendingDependencyGraphs (db : DB) (deps : List (Uuid × Bool)) : List Uuid :=
  ((deps.map Prod.fst).filter
    (fun gid => db.graphs.any (fun gr => gr.id == gid && gr.result == none))).mergeSort

/-- PostgresStorage.create_node (instance.py, lines 69-192): one composed
statement that inserts the optional session row, the optional graph row, the
dependency edges and the node row, marks the parent node finished when a
parent id is given, and returns whether the new node is ready
(pending_dependency_count = 0). The engine is in autocommit mode, so the
statement commits before the python code inspects the returned flags; the
NodeNotFound raised for a missing parent therefore leaves the inserts in
place, which is why the state is returned alongside the error.
The inserted node row takes graph_id from node.id (instance.py line 154),
not from node.graph_id. -/
def createNode (db : DB) (node : CreatedNode) (graph : Option CreatedGraph)
    (session : Option CreatedSession) (retention : Option Time) (now : Time) :
    DB × Except StorageError Bool :=
  let sessions1 := match session with
    | some s => db.sessions ++ [{ id := s.id, retention := retention, cancelled_at := none }]
    | none => db.sessions
  let graphs1 := match graph with
    | some gr => db.graphs ++
        [{ id := gr.id, session_id := gr.session_id, trace_context := gr.trace_context,
           result := none }]
    | none => db.graphs
  let nodes1 := match node.parent_id with
    | some pid => db.nodes.map
        (fun m => if m.id == pid then { m with finished_at := some now } else m)
    | none => db.nodes
  let parentFound := match node.parent_id with
    | some pid => db.nodes.any (fun m => m.id == pid)
    | none => true
  let deps1 := db.dependencies ++ node.dependencies.map
    (fun p => { node_id := node.id, graph_id := p.1, is_data := p.2 : DepRow })
  let pending := (pendingDependencyGraphs db node.dependencies).length
  let newRow : NodeRow :=
    { id := node.id, graph_id := node.id, arguments := node.arguments,
      trace_context := node.trace_context, broker_params := node.broker_params,
      executor_params := node.executor_params,
      pending_dependency_count := (pending : Int),
      created_at := now, started_at := none, finished_at := none }
  let db1 : DB :=
    { sessions := sessions1, graphs := graphs1, nodes := nodes1 ++ [newRow],
      dependencies := deps1 }
  if parentFound then (db1, .ok (pending == 0))
  else (db1, .error (.nodeNotFound (node.parent_id.getD node.id)))

/-- Tail of Interactor.invoke_node (interactor.py, lines 182-191): run
create_node and, exactly when it returned ready, publish one enqueued-node
message for the node. The second component of the result collects the ids
published on the broker. -/
def invokeNodeAdmit (db : DB) (node : CreatedNode) (graph : Option CreatedGraph)
    (session : Option CreatedSession) (retention : Option Time) (now : Time) :
    DB × Except StorageError (Bool × List Uuid) :=
  match createNode db node graph session retention now with
  | (db1, .error e) => (db1, .error e)
  | (db1, .ok isReady) => (db1, .ok (isReady, if isReady then [node.id] else []))

/-- Result of start_node (src/mycelia/core/entities.py, StartedNode);
dependencies pairs each data-dependency graph id with that graph's result. -/
structure StartedNode where
  id : Uuid
  graph_id : Uuid
  arguments : Bytes
  dependencies : List (Uuid × Option Bytes)
  graph_trace_context : Bytes
  executor_params : Bytes
deriving DecidableEq

/-- PostgresStorage.start_node (instance.py, lines 194-279): one statement
whose data-modifying CTE sets started_at on the node unconditionally, while
the main query reads the statement snapshot: the node row joined with its
graph and session, plus the aggregated data dependencies. The python code
then raises NodeNotFound when the join produced no row and SessionCancelled
when the session's cancelled_at was set; the update CTE has executed in
either case, so the new state is returned alongside the error. -/
def startNode (db : DB) (id : Uuid) (now : Time) :
    DB × Except StorageError StartedNode :=
  let row := (db.nodes.find? (fun n => n.id == id)).bind fun n =>
    (db.graphs.find? (fun gr => gr.id == n.graph_id)).bind fun gr =>
      (db.sessions.find? (fun s => s.id == gr.session_id)).map fun s => (n, gr, s)
  let nodes1 := db.nodes.map
    (fun m => if m.id == id then { m with started_at := some now } else m)
  let db1 := { db with nodes := nodes1 }
  match row with
  | none => (db1, .error (.nodeNotFound id))
  | some (n, gr, s) =>
    if s.cancelled_at.isSome then (db1, .error (.sessionCancelled id))
    else
      let deps := db.dependencies.filterMap fun d =>
        if d.node_id == id && d.is_data then
          (db.graphs.find? (fun g2 => g2.id == d.graph_id)).map fun g2 => (g2.id, g2.result)
        else none
      (db1, .ok { id := id, graph_id := n.graph_id, arguments := n.arguments,
                  dependencies := deps, graph_trace_context := gr.trace_context,
                  executor_params := n.executor_params })

/-- PostgresStorage.cancel_session (instance.py, lines 311-358): a UNION ALL
of the guarded update (set cancelled_at where it is NULL and some graph of
the session still has a NULL result) and a probe selecting whether the
session row exists and was already cancelled in the statement snapshot. Two
result rows mean the update matched; zero rows mean no such session; one row
distinguishes already-cancelled from already-finished. -/
def cancelSession (db : DB) (id : Uuid) (now : Time) :
    DB × Except StorageError Bool :=
  let isRunning := db.graphs.any (fun gr => gr.session_id == id && gr.result == none)
  let matched :=
    db.sessions.any (fun s => s.id == id && s.cancelled_at == none) && isRunning
  let sessions1 :=
    if matched then
      db.sessions.map (fun s => if s.id == id && s.cancelled_at == none
        then { s with cancelled_at := some now } else s)
    else db.sessions
  let db1 := { db with sessions := sessions1 }
  if matched then (db1, .ok true)
  else
    match db.sessions.find? (fun s => s.id == id) with
    | none => (db1, .error (.sessionNotFound id))
    | some s =>
      if s.cancelled_at.isSome then (db1, .error (.sessionCancelled id))
      else (db1, .error (.sessionFinished id))

/-- Interactor.cancel_session (interactor.py, lines 208-212): it gathers
storage.cancel_session and broker.publish_session_cancelled concurrently in
one task group. The publish coroutine never observes the storage outcome, so
the linearisation in which the broadcast is delivered is admissible whatever
the storage call returns; the broadcast list therefore always grows. -/
def interactorCancelSession (db : DB) (broadcasts : List Uuid) (id : Uuid) (now : Time) :
    (DB × List Uuid) × Except StorageError Unit :=
  let r := cancelSession db id now
  ((r.1, broadcasts ++ [id]), r.2.map fun _ => ())

/-! Orchestration-side deduplication (Interactor.invoke_node, interactor.py
lines 84-193). A NodeCall tree is the client-side call DAG: sharing a call in
several positions duplicates the subtree but keeps the builder-assigned id,
which is exactly what the dedup map has to collapse. -/

/-- A client-side call: builder id plus the dependency calls, each carrying
its is_data flag (core.entities.InvokedNode). -/
inductive Call where
  | mk (cid : Uuid) (deps : List (Call × Bool))

/-- Builder id of the call. -/
def Call.cid : Call → Uuid
  | .mk i _ => i

/-- Dependency list of the call. -/
def Call.deps : Call → List (Call × Bool)
  | .mk _ ds => ds

/-- State of one orchestration: the shared session id, the ids holding an
entry in the context's created_nodes map, and the node ids for which
storage.create_node has been issued (one storage row each). -/
structure OrchCtx where
  sessionId : Uuid
  createdNodes : List Uuid
  rows : List Uuid
deriving DecidableEq

mutual

/-- Sequential linearisation of Interactor.invoke_node: an id already present
in context.created_nodes is awaited and the cached session id (the one set at
admission, which is always the context's session id) is returned without
touching storage; otherwise a pending entry is inserted before any await,
the dependencies are invoked in order, and finally create_node runs, which
appends exactly one storage row for the id. The python code inserts the
entry synchronously before its first suspension point, so no interleaving of
the cooperative scheduler admits an id twice; the left-to-right recursion
below is one admissible linearisation. -/
def invokeNodeModel : Call → OrchCtx → Uuid × OrchCtx
  | .mk i ds, ctx =>
    if i ∈ ctx.createdNodes then (ctx.sessionId, ctx)
    else
      let ctx2 := invokeDepsModel ds { ctx with createdNodes := i :: ctx.createdNodes }
      (ctx2.sessionId, { ctx2 with rows := ctx2.rows ++ [i] })

def invokeDepsModel : List (Call × Bool) → OrchCtx → OrchCtx
  | [], ctx => ctx
  | (d, _) :: rest, ctx => invokeDepsModel rest (invokeNodeModel d ctx).2

end

mutual

/-- All builder ids occurring in a call tree. -/
def callIds : Call → List Uuid
  | .mk i ds => i :: callIdsOf ds

def callIdsOf : List (Call × Bool) → List Uuid
  | [] => []
  | (d, _) :: rest => callIds d ++ callIdsOf rest

end

/-! Event-with-value (utils.py, class EventWithValue, lines 231-276). -/

/-- Per-id entry of the orchestration context map: an asyncio event plus an
optional value and an optional exception, exactly the three slots of
EventWithValue. -/
structure EventWithValue (V E : Type) where
  is_set : Bool
  value : Option V
  exception : Option E
deriving DecidableEq

/-- A fresh EventWithValue: event clear, no value, no exception. -/
def EventWithValue.init {V E : Type} : EventWithValue V E :=
  { is_set := false, value := none, exception := none }

/-- EventWithValue.set: raises RuntimeError (modelled as the error branch)
when the event is already set, otherwise stores the value and sets the
event. -/
def EventWithValue.setValue {V E : Type} (ev : EventWithValue V E) (v : V) :
    Except Unit (EventWithValue V E) :=
  if ev.is_set then .error ()
  else .ok { ev with value := some v, is_set := true }

/-- EventWithValue.wait: none models a caller blocked on the unset event;
once the event is set, wait re-raises the stored exception if there is one
and otherwise returns the stored value. -/
def EventWithValue.waitResult {V E : Type} (ev : EventWithValue V E) :
    Option (Except E (Option V)) :=
  if ev.is_set then
    match ev.exception with
    | some e => some (.error e)
    | none => some (.ok ev.value)
  else none

/-- EventWithValue.enter, used by the ExitStack in invoke_node: clears the
event and both slots. -/
def EventWithValue.enterScope {V E : Type} (_ : EventWithValue V E) : EventWithValue V E :=
  EventWithValue.init

/-- EventWithValue.exit: when the scope is left with an exception and the
event is not yet set, store the exception and set the event; otherwise leave
the entry untouched. -/
def EventWithValue.exitScope {V E : Type} (ev : EventWithValue V E) (exc : Option E) :
    EventWithValue V E :=
  match exc with
  | some e => if ev.is_set then ev else { ev with exception := some e, is_set := true }
  | none => ev

/-- The lifecycle of the pending entry inserted by invoke_node (interactor.py
lines 88-95 and 184): a fresh entry is entered on the exit stack; if the
admission body finishes with the session id the entry is set to it, and if
it fails the ExitStack completes the entry exceptionally on scope exit. -/
def invokeEntryAfter {E : Type} (outcome : Except E Uuid) : EventWithValue Uuid E :=
  let ev := EventWithValue.init.enterScope
  match outcome with
  | .ok sid => (ev.setValue sid).toOption.getD ev
  | .error e => ev.exitScope (some e)

/-! The codec (utils.py, class Codec, lines 94-189, and the extension types of
interface/executor.py, lines 23-67). The Codec delegates the wire format to
ormsgpack, an external library that is not part of this repository.

Modelled from the spec: the message pack wire format itself (spec section 6:
a length-prefixed self-describing binary format with extension tags,
datetimes as the native timestamp extension, non-string keys permitted in
maps). The encoder below produces the canonical encodings of that format and
the decoder reads all of them; the extension hooks on top of it are
translated from the source (Codec._serialize, Codec._deserialize,
Codec._uuid_to_bytes, Codec._bytes_to_uuid, Codec._timedelta_to_bytes,
Codec._bytes_to_timedelta, DependencyReference, DependencyReferences). -/

/-- Little-endian byte list of width w for value v. -/
def leBytes : Nat → Nat → List Nat
  | 0, _ => []
  | w + 1, v => v % 256 :: leBytes w (v / 256)

/-- Big-endian byte list of width w for value v, as written on the wire. -/
def beBytes (w v : Nat) : List Nat := (leBytes w v).reverse

/-- Value of a little-endian byte list. -/
def leVal : List Nat → Nat
  | [] => 0
  | b :: bs => b + 256 * leVal bs

/-- Value of a big-endian byte list. -/
def beVal (bs : List Nat) : Nat := leVal bs.reverse

/-- Read exactly n bytes from the head of the input. -/
def readBytes (n : Nat) (l : List Nat) : Option (List Nat × List Nat) :=
  if n ≤ l.length then some (l.take n, l.drop n) else none

/-- Read a w-byte big-endian length and then that many payload bytes. -/
def readLenPayload (w : Nat) (l : List Nat) : Option (List Nat × List Nat) :=
  (readBytes w l).bind fun p => readBytes (beVal p.1) p.2

/-- Sign-decode a w-byte two's complement value. -/
def sintOf (w u : Nat) : Int :=
  if u < 2 ^ (8 * w - 1) then (u : Int) else (u : Int) - 2 ^ (8 * w)

/-- A message pack value: the self-describing tree that the wire format
serialises. -/
inductive Msg where
  | nil
  | bool (b : Bool)
  | int (i : Int)
  | float (bits : Nat)
  | str (s : List Nat)
  | bin (b : List Nat)
  | arr (xs : List Msg)
  | map (kvs : List (Msg × Msg))
  | ext (tag : Int) (data : List Nat)

/-- Canonical message pack encoding of an integer: the smallest format among
positive fixint, uint 8/16/32/64, negative fixint and int 8/16/32/64. -/
def encodeInt (i : Int) : List Nat :=
  if 0 ≤ i then
    let n := i.toNat
    if n < 0x80 then [n]
    else if n < 0x100 then [0xcc, n]
    else if n < 0x10000 then 0xcd :: beBytes 2 n
    else if n < 0x100000000 then 0xce :: beBytes 4 n
    else 0xcf :: beBytes 8 n
  else
    if -32 ≤ i then [(i + 256).toNat]
    else if -128 ≤ i then [0xd0, (i + 256).toNat]
    else if -32768 ≤ i then 0xd1 :: beBytes 2 (i + 65536).toNat
    else if -2147483648 ≤ i then 0xd2 :: beBytes 4 (i + 4294967296).toNat
    else 0xd3 :: beBytes 8 (i + 18446744073709551616).toNat

/-- Extension tag as its wire byte (two's complement of the signed int8). -/
def extTagByte (tag : Int) : Nat := (tag % 256).toNat

/-- Header and tag byte of an extension of payload length n: fixext 1/2/4/8/16
for the exact sizes, ext 8/16/32 otherwise. -/
def extHeader (n : Nat) (t : Nat) : List Nat :=
  if n = 1 then [0xd4, t]
  else if n = 2 then [0xd5, t]
  else if n = 4 then [0xd6, t]
  else if n = 8 then [0xd7, t]
  else if n = 16 then [0xd8, t]
  else if n < 0x100 then [0xc7, n, t]
  else if n < 0x10000 then 0xc8 :: beBytes 2 n ++ [t]
  else 0xc9 :: beBytes 4 n ++ [t]

mutual

/-- Canonical message pack encoding of a value. -/
def encodeMsg : Msg → List Nat
  | .nil => [0xc0]
  | .bool false => [0xc2]
  | .bool true => [0xc3]
  | .int i => encodeInt i
  | .float bits => 0xcb :: beBytes 8 bits
  | .str s =>
    if s.length < 32 then (0xa0 + s.length) :: s
    else if s.length < 0x100 then 0xd9 :: s.length :: s
    else if s.length < 0x10000 then 0xda :: beBytes 2 s.length ++ s
    else 0xdb :: beBytes 4 s.length ++ s
  | .bin b =>
    if b.length < 0x100 then 0xc4 :: b.length :: b
    else if b.length < 0x10000 then 0xc5 :: beBytes 2 b.length ++ b
    else 0xc6 :: beBytes 4 b.length ++ b
  | .arr xs =>
    (if xs.length < 16 then [0x90 + xs.length]
     else if xs.length < 0x10000 then 0xdc :: beBytes 2 xs.length
     else 0xdd :: beBytes 4 xs.length) ++ encodeListMsg xs
  | .map kvs =>
    (if kvs.length < 16 then [0x80 + kvs.length]
     else if kvs.length < 0x10000 then 0xde :: beBytes 2 kvs.length
     else 0xdf :: beBytes 4 kvs.length) ++ encodePairsMsg kvs
  | .ext tag data => extHeader data.length (extTagByte tag) ++ data

/-- Concatenated encodings of the elements of an array. -/
def encodeListMsg : List Msg → List Nat
  | [] => []
  | x :: xs => encodeMsg x ++ encodeListMsg xs

/-- Concatenated key and value encodings of the entries of a map. -/
def encodePairsMsg : List (Msg × Msg) → List Nat
  | [] => []
  | (k, v) :: xs => encodeMsg k ++ encodeMsg v ++ encodePairsMsg xs

end

set_option maxRecDepth 8000

mutual

/-- Fuelled message pack decoder; the fuel bounds the nesting depth. -/
def decodeMsg : Nat → List Nat → Option (Msg × List Nat)
  | 0, _ => none
  | _ + 1, [] => none
  | fuel + 1, b :: rest => decodeBody fuel b rest
termination_by fuel _ => (fuel, 0, 0)

/-- Dispatch on the header byte. -/
def decodeBody (fuel : Nat) (b : Nat) (rest : List Nat) : Option (Msg × List Nat) :=
  if b ≤ 0x7f then some (.int b, rest)
  else if b ≤ 0x8f then
    (decodeMapN fuel (b - 0x80) rest).map fun q => (.map q.1, q.2)
  else if b ≤ 0x9f then
    (decodeArrN fuel (b - 0x90) rest).map fun q => (.arr q.1, q.2)
  else if b ≤ 0xbf then
    (readBytes (b - 0xa0) rest).map fun p => (.str p.1, p.2)
  else if b = 0xc0 then some (.nil, rest)
  else if b = 0xc2 then some (.bool false, rest)
  else if b = 0xc3 then some (.bool true, rest)
  else if b = 0xc4 then (readLenPayload 1 rest).map fun p => (.bin p.1, p.2)
  else if b = 0xc5 then (readLenPayload 2 rest).map fun p => (.bin p.1, p.2)
  else if b = 0xc6 then (readLenPayload 4 rest).map fun p => (.bin p.1, p.2)
  else if b = 0xc7 then
    (readBytes 1 rest).bind fun lb => (readBytes 1 lb.2).bind fun t =>
      (readBytes (beVal lb.1) t.2).map fun p => (.ext (sintOf 1 (beVal t.1)) p.1, p.2)
  else if b = 0xc8 then
    (readBytes 2 rest).bind fun lb => (readBytes 1 lb.2).bind fun t =>
      (readBytes (beVal lb.1) t.2).map fun p => (.ext (sintOf 1 (beVal t.1)) p.1, p.2)
  else if b = 0xc9 then
    (readBytes 4 rest).bind fun lb => (readBytes 1 lb.2).bind fun t =>
      (readBytes (beVal lb.1) t.2).map fun p => (.ext (sintOf 1 (beVal t.1)) p.1, p.2)
  else if b = 0xcb then (readBytes 8 rest).map fun p => (.float (beVal p.1), p.2)
  else if b = 0xcc then (readBytes 1 rest).map fun p => (.int (beVal p.1), p.2)
  else if b = 0xcd then (readBytes 2 rest).map fun p => (.int (beVal p.1), p.2)
  else if b = 0xce then (readBytes 4 rest).map fun p => (.int (beVal p.1), p.2)
  else if b = 0xcf then (readBytes 8 rest).map fun p => (.int (beVal p.1), p.2)
  else if b = 0xd0 then (readBytes 1 rest).map fun p => (.int (sintOf 1 (beVal p.1)), p.2)
  else if b = 0xd1 then (readBytes 2 rest).map fun p => (.int (sintOf 2 (beVal p.1)), p.2)
  else if b = 0xd2 then (readBytes 4 rest).map fun p => (.int (sintOf 4 (beVal p.1)), p.2)
  else if b = 0xd3 then (readBytes 8 rest).map fun p => (.int (sintOf 8 (beVal p.1)), p.2)
  else if b = 0xd4 then
    (readBytes 1 rest).bind fun t => (readBytes 1 t.2).map fun p =>
      (.ext (sintOf 1 (beVal t.1)) p.1, p.2)
  else if b = 0xd5 then
    (readBytes 1 rest).bind fun t => (readBytes 2 t.2).map fun p =>
      (.ext (sintOf 1 (beVal t.1)) p.1, p.2)
  else if b = 0xd6 then
    (readBytes 1 rest).bind fun t => (readBytes 4 t.2).map fun p =>
      (.ext (sintOf 1 (beVal t.1)) p.1, p.2)
  else if b = 0xd7 then
    (readBytes 1 rest).bind fun t => (readBytes 8 t.2).map fun p =>
      (.ext (sintOf 1 (beVal t.1)) p.1, p.2)
  else if b = 0xd8 then
    (readBytes 1 rest).bind fun t => (readBytes 16 t.2).map fun p =>
      (.ext (sintOf 1 (beVal t.1)) p.1, p.2)
  else if b = 0xd9 then (readLenPayload 1 rest).map fun p => (.str p.1, p.2)
  else if b = 0xda then (readLenPayload 2 rest).map fun p => (.str p.1, p.2)
  else if b = 0xdb then (readLenPayload 4 rest).map fun p => (.str p.1, p.2)
  else if b = 0xdc then
    (readBytes 2 rest).bind fun n =>
      (decodeArrN fuel (beVal n.1) n.2).map fun q => (.arr q.1, q.2)
  else if b = 0xdd then
    (readBytes 4 rest).bind fun n =>
      (decodeArrN fuel (beVal n.1) n.2).map fun q => (.arr q.1, q.2)
  else if b = 0xde then
    (readBytes 2 rest).bind fun n =>
      (decodeMapN fuel (beVal n.1) n.2).map fun q => (.map q.1, q.2)
  else if b = 0xdf then
    (readBytes 4 rest).bind fun n =>
      (decodeMapN fuel (beVal n.1) n.2).map fun q => (.map q.1, q.2)
  else if 0xe0 ≤ b ∧ b ≤ 0xff then some (.int ((b : Int) - 256), rest)
  else none
termination_by (fuel, 2, 0)

/-- Decode exactly n array elements. -/
def decodeArrN : Nat → Nat → List Nat → Option (List Msg × List Nat)
  | _, 0, l => some ([], l)
  | fuel, n + 1, l =>
    (decodeMsg fuel l).bind fun p =>
      (decodeArrN fuel n p.2).map fun q => (p.1 :: q.1, q.2)
termination_by fuel n _ => (fuel, 1, n + 1)

/-- Decode exactly n key-value entries. -/
def decodeMapN : Nat → Nat → List Nat → Option (List (Msg × Msg) × List Nat)
  | _, 0, l => some ([], l)
  | fuel, n + 1, l =>
    (decodeMsg fuel l).bind fun k =>
      (decodeMsg fuel k.2).bind fun v =>
        (decodeMapN fuel n v.2).map fun q => ((k.1, v.1) :: q.1, q.2)
termination_by fuel n _ => (fuel, 1, n + 1)

end

mutual

/-- Nesting depth of a value: the fuel the decoder needs for it. -/
def msgDepth : Msg → Nat
  | .arr xs => 1 + msgDepthList xs
  | .map kvs => 1 + msgDepthPairs kvs
  | _ => 1

/-- Largest nesting depth among array elements. -/
def msgDepthList : List Msg → Nat
  | [] => 0
  | x :: xs => max (msgDepth x) (msgDepthList xs)

/-- Largest nesting depth among map entries. -/
def msgDepthPairs : List (Msg × Msg) → Nat
  | [] => 0
  | (k, v) :: xs => max (max (msgDepth k) (msgDepth v)) (msgDepthPairs xs)

end

mutual

/-- Values representable on the wire: integers within the 64-bit signed or
unsigned range, float bits within 64 bits, byte lengths within 32 bits and
extension tags within the signed byte range. -/
def wfMsg : Msg → Bool
  | .nil => true
  | .bool _ => true
  | .int i => decide (-(2 ^ 63 : Int) ≤ i) && decide (i < (2 ^ 64 : Int))
  | .float bits => decide (bits < 2 ^ 64)
  | .str s => decide (s.length < 2 ^ 32)
  | .bin b => decide (b.length < 2 ^ 32)
  | .arr xs => decide (xs.length < 2 ^ 32) && wfMsgList xs
  | .map kvs => decide (kvs.length < 2 ^ 32) && wfMsgPairs kvs
  | .ext t d => decide (-128 ≤ t) && decide (t < 128) && decide (d.length < 2 ^ 32)

/-- Well-formedness of every array element. -/
def wfMsgList : List Msg → Bool
  | [] => true
  | x :: xs => wfMsg x && wfMsgList xs

/-- Well-formedness of every map entry. -/
def wfMsgPairs : List (Msg × Msg) → Bool
  | [] => true
  | (k, v) :: xs => wfMsg k && wfMsg v && wfMsgPairs xs

end

/-- A python value of the types the codec supports: message pack scalars
(None, bool, int, str, bytes, float), the default extension types of
Codec.__init__ (UUID with tag 0 and timedelta with tag 1), datetimes (the
native timestamp extension enabled by OPT_DATETIME_AS_TIMESTAMP_EXT), the
two dependency-reference extensions of interface/executor.py (tags 2 and 3),
and lists and dicts, the latter with arbitrary keys (OPT_NON_STR_KEYS).
Floats and timedeltas are carried as the 64 bits of their IEEE 754 double
(a timedelta travels as packb of total_seconds); a datetime is carried as
its timestamp-extension payload. -/
inductive PyValue where
  | pynone
  | pybool (b : Bool)
  | pyint (i : Int)
  | pystr (s : List Nat)
  | pybytes (b : List Nat)
  | pyfloat (bits : Nat)
  | pyuuid (b : Bytes)
  | duration (bits : Nat)
  | datetime (payload : Bytes)
  | depRef (b : Bytes)
  | depRefs (bs : List Bytes)
  | pylist (xs : List PyValue)
  | pydict (kvs : List (PyValue × PyValue))

mutual

/-- The serialisation traversal of to_bytes: native values pass through and
each registered type is replaced by its extension (Codec._serialize finds the
serializer via the mro and wraps the payload in Ext(tag, payload)); the
payloads are those of _uuid_to_bytes, _timedelta_to_bytes,
DependencyReference.to_bytes and DependencyReferences.to_bytes, and datetimes
become the native timestamp extension. -/
def serializeValue : PyValue → Msg
  | .pynone => .nil
  | .pybool b => .bool b
  | .pyint i => .int i
  | .pystr s => .str s
  | .pybytes b => .bin b
  | .pyfloat bits => .float bits
  | .pyuuid b => .ext 0 b
  | .duration bits => .ext 1 (encodeMsg (.float bits))
  | .datetime p => .ext (-1) p
  | .depRef b => .ext 2 b
  | .depRefs bs => .ext 3 bs.flatten
  | .pylist xs => .arr (serializeList xs)
  | .pydict kvs => .map (serializePairs kvs)

/-- Serialisation of the elements of a list. -/
def serializeList : List PyValue → List Msg
  | [] => []
  | x :: xs => serializeValue x :: serializeList xs

/-- Serialisation of the entries of a dict. -/
def serializePairs : List (PyValue × PyValue) → List (Msg × Msg)
  | [] => []
  | (k, v) :: xs => (serializeValue k, serializeValue v) :: serializePairs xs

end

/-- Split a byte list into 16-byte chunks, the loop of
DependencyReferences.from_bytes. -/
def chunk16 (l : List Nat) : List (List Nat) :=
  if l.isEmpty then [] else l.take 16 :: chunk16 (l.drop 16)
termination_by l.length
decreasing_by
  simp only [List.length_drop]
  cases l with
  | nil => simp [List.isEmpty] at *
  | cons a t => simp; omega

mutual

/-- The deserialisation traversal of from_bytes: native values pass through
and each extension is resolved by Codec._deserialize via the tag table
(unknown tags raise): tag 0 is _bytes_to_uuid (exactly 16 bytes), tag 1 is
_bytes_to_timedelta (unpackb of the payload, a float), tags 2 and 3 are
DependencyReference.from_bytes and DependencyReferences.from_bytes (16-byte
chunks), and the native timestamp extension yields the datetime. -/
def deserializeValue : Msg → Option PyValue
  | .nil => some .pynone
  | .bool b => some (.pybool b)
  | .int i => some (.pyint i)
  | .str s => some (.pystr s)
  | .bin b => some (.pybytes b)
  | .float bits => some (.pyfloat bits)
  | .arr xs => (deserializeList xs).map .pylist
  | .map kvs => (deserializePairs kvs).map .pydict
  | .ext tag d =>
    if tag = 0 then if d.length = 16 then some (.pyuuid d) else none
    else if tag = 1 then
      match decodeMsg (d.length + 1) d with
      | some (.float bits, []) => some (.duration bits)
      | _ => none
    else if tag = 2 then if d.length = 16 then some (.depRef d) else none
    else if tag = 3 then
      if d.length % 16 = 0 then some (.depRefs (chunk16 d)) else none
    else if tag = -1 then some (.datetime d)
    else none

/-- Deserialisation of the elements of a list. -/
def deserializeList : List Msg → Option (List PyValue)
  | [] => some []
  | x :: xs =>
    (deserializeValue x).bind fun v => (deserializeList xs).map fun vs => v :: vs

/-- Deserialisation of the entries of a map. -/
def deserializePairs : List (Msg × Msg) → Option (List (PyValue × PyValue))
  | [] => some []
  | (k, v) :: xs =>
    (deserializeValue k).bind fun k2 => (deserializeValue v).bind fun v2 =>
      (deserializePairs xs).map fun vs => (k2, v2) :: vs

end

mutual

/-- Supported values the wire format can carry faithfully: byte payloads of
the registered extensions have the length their decoders demand, and sizes
fit the format limits (dependency-reference tuples stay under 2 to the 28
entries so that 16 bytes each fit the 32-bit extension length). -/
def wfValue : PyValue → Bool
  | .pynone => true
  | .pybool _ => true
  | .pyint i => decide (-(2 ^ 63 : Int) ≤ i) && decide (i < (2 ^ 64 : Int))
  | .pystr s => decide (s.length < 2 ^ 32)
  | .pybytes b => decide (b.length < 2 ^ 32)
  | .pyfloat bits => decide (bits < 2 ^ 64)
  | .pyuuid b => decide (b.length = 16)
  | .duration bits => decide (bits < 2 ^ 64)
  | .datetime p => decide (p.length < 2 ^ 32)
  | .depRef b => decide (b.length = 16)
  | .depRefs bs => decide (bs.length < 2 ^ 28) && bs.all (fun b => decide (b.length = 16))
  | .pylist xs => decide (xs.length < 2 ^ 32) && wfValueList xs
  | .pydict kvs => decide (kvs.length < 2 ^ 32) && wfValuePairs kvs

/-- Well-formedness of every list element. -/
def wfValueList : List PyValue → Bool
  | [] => true
  | x :: xs => wfValue x && wfValueList xs

/-- Well-formedness of every dict entry. -/
def wfValuePairs : List (PyValue × PyValue) → Bool
  | [] => true
  | (k, v) :: xs => wfValue k && wfValue v && wfValuePairs xs

end

/-- Codec.to_bytes: pack the value with the serializer hook. -/
def codecToBytes (x : PyValue) : List Nat :=
  encodeMsg (serializeValue x)

/-- Codec.from_bytes: unpack the bytes with the deserializer hook, requiring
the whole input to be consumed. -/
def codecFromBytes (l : List Nat) : Option PyValue :=
  match decodeMsg (l.length + 1) l with
  | some (m, []) => deserializeValue m
  | _ => none

/-! Concrete fixtures for witnesses and counterexamples. -/

/-- A two-graph session: node 0 roots graph 0 (result still null) and node 1,
rooting graph 1, holds a data dependency edge on graph 0 with pending
count 1. -/
def dbA : DB :=
  { sessions := [{ id := 100, retention := none, cancelled_at := none }],
    graphs := [{ id := 0, session_id := 100, trace_context := [], result := none },
               { id := 1, session_id := 100, trace_context := [], result := none }],
    nodes := [{ id := 0, graph_id := 0, arguments := [], trace_context := [],
                broker_params := [], executor_params := [],
                pending_dependency_count := 0, created_at := 0,
                started_at := none, finished_at := none },
              { id := 1, graph_id := 1, arguments := [], trace_context := [],
                broker_params := [5], executor_params := [],
                pending_dependency_count := 1, created_at := 0,
                started_at := none, finished_at := none }],
    dependencies := [{ node_id := 1, graph_id := 0, is_data := true }] }

/-- The database dbA after node 0 completed with result byte 1 at time 3:
graph 0 carries the result, node 0 is finished and node 1 was decremented
to pending count 0. -/
def dbA2 : DB :=
  { sessions := [{ id := 100, retention := none, cancelled_at := none }],
    graphs := [{ id := 0, session_id := 100, trace_context := [], result := some [1] },
               { id := 1, session_id := 100, trace_context := [], result := none }],
    nodes := [{ id := 0, graph_id := 0, arguments := [], trace_context := [],
                broker_params := [], executor_params := [],
                pending_dependency_count := 0, created_at := 0,
                started_at := none, finished_at := some 3 },
              { id := 1, graph_id := 1, arguments := [], trace_context := [],
                broker_params := [5], executor_params := [],
                pending_dependency_count := 0, created_at := 0,
                started_at := none, finished_at := none }],
    dependencies := [{ node_id := 1, graph_id := 0, is_data := true }] }

/-- A session with one graph and its root node 10, used for the admission
fixtures: the node subsequently admitted into graph 10 is node 20. -/
def dbF : DB :=
  { sessions := [{ id := 100, retention := none, cancelled_at := none }],
    graphs := [{ id := 10, session_id := 100, trace_context := [], result := none }],
    nodes := [{ id := 10, graph_id := 10, arguments := [], trace_context := [],
                broker_params := [], executor_params := [],
                pending_dependency_count := 0, created_at := 0,
                started_at := some 1, finished_at := none }],
    dependencies := [] }

/-- A node spliced into the existing graph 10 (is_first_node false): the
interactor passes the orchestration context's graph id 10 and the current
node 10 as parent. -/
def cnF : CreatedNode :=
  { id := 20, parent_id := some 10, graph_id := 10, arguments := [],
    dependencies := [], trace_context := [], broker_params := [],
    executor_params := [] }

/-- A session with one terminal graph 0 (result already written) and one
running graph 1. -/
def dbB : DB :=
  { sessions := [{ id := 100, retention := none, cancelled_at := none }],
    graphs := [{ id := 0, session_id := 100, trace_context := [], result := some [7] },
               { id := 1, session_id := 100, trace_context := [], result := none }],
    nodes := [{ id := 0, graph_id := 0, arguments := [], trace_context := [],
                broker_params := [], executor_params := [],
                pending_dependency_count := 0, created_at := 0,
                started_at := some 1, finished_at := some 2 },
              { id := 1, graph_id := 1, arguments := [], trace_context := [],
                broker_params := [], executor_params := [],
                pending_dependency_count := 0, created_at := 0,
                started_at := none, finished_at := none }],
    dependencies := [] }

/-- A node admitted with one data dependency on the terminal graph 0 and one
ordering dependency on the running graph 1. -/
def cnB : CreatedNode :=
  { id := 2, parent_id := none, graph_id := 2, arguments := [],
    dependencies := [(0, true), (1, false)], trace_context := [],
    broker_params := [], executor_params := [] }

/-- A cancelled session (cancelled_at set at time 9) whose graph 0 has the
not-yet-started node 0. -/
def dbC : DB :=
  { sessions := [{ id := 100, retention := none, cancelled_at := some 9 }],
    graphs := [{ id := 0, session_id := 100, trace_context := [7], result := none }],
    nodes := [{ id := 0, graph_id := 0, arguments := [], trace_context := [],
                broker_params := [], executor_params := [],
                pending_dependency_count := 0, created_at := 0,
                started_at := none, finished_at := none }],
    dependencies := [] }

/-- An already-cancelled session with a still-running graph. -/
def dbD : DB :=
  { sessions := [{ id := 100, retention := none, cancelled_at := some 9 }],
    graphs := [{ id := 0, session_id := 100, trace_context := [], result := none }],
    nodes := [], dependencies := [] }

/-- A live session with one running graph, cancellable. -/
def dbE : DB :=
  { sessions := [{ id := 100, retention := none, cancelled_at := none }],
    graphs := [{ id := 0, session_id := 100, trace_context := [], result := none }],
    nodes := [], dependencies := [] }

/-- Relation between an orchestration state and a later one: the session id
is unchanged, the context map only grew, the storage rows grew by distinct
ids that had no context entry before, and every new context entry got a
storage row by the time the step completed. -/
def OrchStep (a b : OrchCtx) : Prop :=
  b.sessionId = a.sessionId ∧
  ∃ newC newR, b.createdNodes = newC ++ a.createdNodes ∧ b.rows = a.rows ++ newR ∧
    newR.Nodup ∧ (∀ i ∈ newR, i ∉ a.createdNodes ∧ i ∈ b.createdNodes) ∧
    (∀ i ∈ newC, i ∈ newR)

/-! Generic list lemmas used by the storage proofs. -/

theorem mem_key_unique {α : Type} (key : α → Nat) :
    ∀ (l : List α), (l.map key).Nodup → ∀ {a b : α}, a ∈ l → b ∈ l → key a = key b → a = b := by
  intro l
  induction l with
  | nil => intro _ a b ha; cases ha
  | cons x t ih =>
    intro hnd a b ha hb hk
    rw [List.map_cons, List.nodup_cons] at hnd
    obtain ⟨hx, ht⟩ := hnd
    rcases List.mem_cons.mp ha with rfl | hat
    · rcases List.mem_cons.mp hb with rfl | hbt
      · rfl
      · exact absurd (hk ▸ List.mem_map_of_mem key hbt) hx
    · rcases List.mem_cons.mp hb with rfl | hbt
      · exact absurd (hk ▸ List.mem_map_of_mem key hat) hx
      · exact ih ht hat hbt hk

theorem find_map_key {α : Type} (key : α → Nat) (f : α → α) (hf : ∀ x, key (f x) = key x) :
    ∀ (l : List α), (l.map key).Nodup → ∀ m ∈ l,
      (l.map f).find? (fun x => key x == key m) = some (f m) := by
  intro l
  induction l with
  | nil => intro _ m hm; cases hm
  | cons a t ih =>
    intro hnd m hm
    rw [List.map_cons, List.nodup_cons] at hnd
    obtain ⟨ha, ht⟩ := hnd
    rw [List.map_cons]
    rcases List.mem_cons.mp hm with rfl | hmt
    · rw [List.find?_cons_of_pos _ (by simp [hf])]
    · rw [List.find?_cons_of_neg, ih ht m hmt]
      simp only [hf, beq_iff_eq]
      intro h
      exact ha (h ▸ List.mem_map_of_mem key hmt)

theorem find_key {α : Type} (key : α → Nat) (l : List α) (hnd : (l.map key).Nodup)
    (m : α) (hm : m ∈ l) : l.find? (fun x => key x == key m) = some m := by
  have h := find_map_key key id (fun _ => rfl) l hnd m hm
  simpa using h

theorem filterMap_map_key {α β : Type} (J : α → Option β) (keyA : α → Nat) (keyB : β → Nat) :
    ∀ l : List α, (∀ x ∈ l, ∃ y, J x = some y ∧ keyB y = keyA x) →
      (l.filterMap J).map keyB = l.map keyA := by
  intro l
  induction l with
  | nil => intro _; rfl
  | cons a t ih =>
    intro h
    obtain ⟨y, hy, hk⟩ := h a (List.mem_cons_self a t)
    rw [List.filterMap_cons, hy, List.map_cons, List.map_cons, hk,
      ih (fun x hx => h x (List.mem_cons_of_mem a hx))]

/-!  C1: behaviour of the stored procedure on the first-writer branch. -/

/-- C1: for every completed node n with result r, when the graph result of n
is still null, complete_node marks n finished, sets the graph result to r,
decrements pending_dependency_count of every node with a dependency edge
(data or ordering) on that graph, and returns exactly the decremented nodes
whose new count is 0; when no node row matches the id it fails with
NodeNotFound. -/
theorem complete_node_first_writer (db : DB) (nid : Uuid) (r : Bytes) (t : Time)
    (hwf : db.WF) :
    (db.nodes.find? (fun n => n.id == nid) = none →
      completeNode db nid r t = .error (.nodeNotFound nid)) ∧
    (∀ row, db.nodes.find? (fun n => n.id == nid) = some row →
      (∃ gr ∈ db.graphs, gr.id = row.graph_id ∧ gr.result = none) →
      ∃ db1 ready, completeNode db nid r t = .ok (db1, ready) ∧
        (∀ m ∈ db.nodes, db1.nodes.find? (fun x => x.id == m.id) =
          some { m with
            finished_at := if m.id = nid then some t else m.finished_at,
            pending_dependency_count := m.pending_dependency_count -
              (if hasDepOn db m.id row.graph_id then 1 else 0) }) ∧
        (∀ gr ∈ db.graphs, db1.graphs.find? (fun x => x.id == gr.id) =
          some (if gr.id = row.graph_id then { gr with result := some r } else gr)) ∧
        ready.map ReadyNode.id = (db.nodes.filter (fun m =>
          hasDepOn db m.id row.graph_id &&
            m.pending_dependency_count == 1)).map NodeRow.id) := by
  obtain ⟨hndN, hndG, _, hfkNG, _, _⟩ := hwf
  constructor
  · intro hnone
    unfold completeNode
    rw [hnone]
  · intro row hfind hnull
    obtain ⟨gr0, hgr0mem, hgr0id, hgr0res⟩ := hnull
    have hany : db.graphs.any (fun gr => gr.id == row.graph_id && gr.result == none) = true := by
      rw [List.any_eq_true]
      exact ⟨gr0, hgr0mem, by simp [hgr0id, hgr0res]⟩
    -- pointwise description of the two node updates
    have hcomp : ∀ m : NodeRow,
        (fun m => if hasDepOn db m.id row.graph_id then
            { m with pending_dependency_count := m.pending_dependency_count - 1 } else m)
          ((fun m => if m.id == nid then { m with finished_at := some t } else m) m) =
        { m with
          finished_at := if m.id = nid then some t else m.finished_at,
          pending_dependency_count := m.pending_dependency_count -
            (if hasDepOn db m.id row.graph_id then 1 else 0) } := by
      intro m
      by_cases h1 : m.id = nid
      · by_cases h2 : hasDepOn db m.id row.graph_id = true <;>
          simp [h1, h2, h1 ▸ h2]
      · by_cases h2 : hasDepOn db m.id row.graph_id = true <;>
          simp [h1, h2]
    have hnodes2 : ((db.nodes.map
          (fun m => if m.id == nid then { m with finished_at := some t } else m)).map
            (fun m => if hasDepOn db m.id row.graph_id then
              { m with pending_dependency_count := m.pending_dependency_count - 1 } else m)) =
        db.nodes.map (fun m =>
          { m with
            finished_at := if m.id = nid then some t else m.finished_at,
            pending_dependency_count := m.pending_dependency_count -
              (if hasDepOn db m.id row.graph_id then 1 else 0) }) := by
      rw [List.map_map]
      exact List.map_congr_left fun a _ => hcomp a
    have hrun : completeNode db nid r t =
        .ok ({ db with
            nodes := (db.nodes.map
                (fun m => if m.id == nid then { m with finished_at := some t } else m)).map
              (fun m => if hasDepOn db m.id row.graph_id then
                { m with pending_dependency_count := m.pending_dependency_count - 1 } else m),
            graphs := db.graphs.map (fun gr => if gr.id == row.graph_id && gr.result == none
              then { gr with result := some r } else gr) },
          (((db.nodes.map
              (fun m => if m.id == nid then { m with finished_at := some t } else m)).map
                (fun m => if hasDepOn db m.id row.graph_id then
                  { m with pending_dependency_count := m.pending_dependency_count - 1 } else m)).filter
            (fun m => hasDepOn db m.id row.graph_id &&
              m.pending_dependency_count == 0)).filterMap
            (readyRow (db.graphs.map (fun gr => if gr.id == row.graph_id && gr.result == none
              then { gr with result := some r } else gr)))) := by
      unfold completeNode
      rw [hfind]
      simp only [hany, if_true]
    rw [hnodes2] at hrun
    refine ⟨_, _, hrun, ?_, ?_, ?_⟩
    · -- node rows after the update
      intro m hm
      exact find_map_key NodeRow.id
        (fun m => { m with
          finished_at := if m.id = nid then some t else m.finished_at,
          pending_dependency_count := m.pending_dependency_count -
            (if hasDepOn db m.id row.graph_id then 1 else 0) })
        (fun x => rfl) db.nodes hndN m hm
    · -- graph rows after the update
      intro gr hgr
      have h := find_map_key GraphRow.id
        (fun x => if x.id == row.graph_id && x.result == none
          then { x with result := some r } else x)
        (fun x => by by_cases hc : (x.id == row.graph_id && x.result == none) = true <;>
          simp [hc]) db.graphs hndG gr hgr
      simp only [h]
      by_cases hid : gr.id = row.graph_id
      · have : gr = gr0 := mem_key_unique GraphRow.id db.graphs hndG hgr hgr0mem
          (by rw [hid, hgr0id])
        subst this
        simp [hid, hgr0res]
      · simp [hid]
    · -- the fan-out list
      rw [@List.filter_map NodeRow NodeRow
        (fun m => hasDepOn db m.id row.graph_id && m.pending_dependency_count == 0) _ db.nodes]
      have hpred : db.nodes.filter ((fun m => hasDepOn db m.id row.graph_id &&
            m.pending_dependency_count == 0) ∘ (fun m =>
            { m with
              finished_at := if m.id = nid then some t else m.finished_at,
              pending_dependency_count := m.pending_dependency_count -
                (if hasDepOn db m.id row.graph_id then 1 else 0) })) =
          db.nodes.filter (fun m => hasDepOn db m.id row.graph_id &&
            m.pending_dependency_count == 1) := by
        apply List.filter_congr
        intro m _
        by_cases h2 : hasDepOn db m.id row.graph_id = true
        · simp only [Function.comp, h2, if_true, Bool.true_and]
          have h3 : (m.pending_dependency_count - 1 == 0) =
              (m.pending_dependency_count == 1) := by
            by_cases h : m.pending_dependency_count = 1 <;> simp [h]
            omega
          simpa using h3
        · simp [Function.comp, h2]
      rw [hpred, List.filterMap_map]
      apply filterMap_map_key
      intro m hmf
      have hm : m ∈ db.nodes := List.mem_of_mem_filter hmf
      obtain ⟨grm, hgrmmem, hgrmid⟩ := hfkNG m hm
      have hfindg := find_map_key GraphRow.id
        (fun x => if x.id == row.graph_id && x.result == none
          then { x with result := some r } else x)
        (fun x => by by_cases hc : (x.id == row.graph_id && x.result == none) = true <;>
          simp [hc]) db.graphs hndG grm hgrmmem
      refine ⟨ReadyNode.mk m.id m.trace_context m.broker_params grm.session_id, ?_, rfl⟩
      have hgid : (fun (x : GraphRow) => x.id == m.graph_id) =
          (fun (x : GraphRow) => x.id == grm.id) := by
        funext x; rw [hgrmid]
      simp only [Function.comp, readyRow]
      rw [hgid, hfindg]
      by_cases hc : (grm.id == row.graph_id && grm.result == none) = true <;> simp [hc]

/-- C1 witness: the theorem applied to the concrete database dbA, in which
completing node 0 releases node 1, producing the fan-out list with exactly
node 1 in it. -/
theorem complete_node_first_writer_witness :
    dbA.WF ∧
    ∃ db1 ready, completeNode dbA 0 [1] 3 = .ok (db1, ready) ∧
      ready.map ReadyNode.id = [1] := by
  refine ⟨by decide, ?_⟩
  obtain ⟨db1, ready, hrun, _, _, hmap⟩ :=
    (complete_node_first_writer dbA 0 [1] 3 (by decide)).2
      { id := 0, graph_id := 0, arguments := [], trace_context := [],
        broker_params := [], executor_params := [],
        pending_dependency_count := 0, created_at := 0,
        started_at := none, finished_at := none }
      (by decide)
      ⟨{ id := 0, session_id := 100, trace_context := [], result := none },
        by decide, rfl, rfl⟩
  refine ⟨db1, ready, hrun, ?_⟩
  rw [hmap]
  decide

/-! C3 and C4: behaviour of the stored procedure on the second-writer
branch (the graph result is already non-null). -/

theorem completeNode_second_writer_aux (db : DB) (nid : Uuid) (r : Bytes) (t : Time)
    (row : NodeRow)
    (hfind : db.nodes.find? (fun n => n.id == nid) = some row)
    (hnotnull : db.graphs.any (fun gr => gr.id == row.graph_id && gr.result == none) = false)
    (hexists : db.graphs.any (fun gr => gr.id == row.graph_id) = true) :
    completeNode db nid r t = .ok ({ db with
        nodes := db.nodes.map
          (fun m => if m.id == nid then { m with finished_at := some t } else m),
        graphs := db.graphs.map
          (fun gr => if gr.id == row.graph_id then { gr with result := some r } else gr) },
      ((db.nodes.map
          (fun m => if m.id == nid then { m with finished_at := some t } else m)).filter
        (fun m => hasDepOn db m.id row.graph_id && m.pending_dependency_count == 0)).filterMap
        (readyRow (db.graphs.map
          (fun gr => if gr.id == row.graph_id then { gr with result := some r } else gr)))) := by
  unfold completeNode
  rw [hfind]
  simp only [hnotnull, hexists, Bool.false_eq_true, if_false, if_true]

theorem completeNode_second_writer_full (db : DB) (nid : Uuid) (r : Bytes) (t : Time)
    (row : NodeRow) (gr0 : GraphRow) (v : Bytes) (hwf : db.WF)
    (hfind : db.nodes.find? (fun n => n.id == nid) = some row)
    (hgr0 : gr0 ∈ db.graphs) (hid : gr0.id = row.graph_id) (hres : gr0.result = some v) :
    ∃ db1 ready, completeNode db nid r t = .ok (db1, ready) ∧
      db1.graphs.find? (fun x => x.id == row.graph_id) = some { gr0 with result := some r } ∧
      (∀ m ∈ db.nodes, db1.nodes.find? (fun x => x.id == m.id) =
        some { m with finished_at := if m.id = nid then some t else m.finished_at }) ∧
      ready.map ReadyNode.id = (db.nodes.filter (fun m =>
        hasDepOn db m.id row.graph_id && m.pending_dependency_count == 0)).map NodeRow.id := by
  obtain ⟨hndN, hndG, _, hfkNG, _, _⟩ := hwf
  have hnotnull : db.graphs.any (fun gr => gr.id == row.graph_id && gr.result == none) = false := by
    rw [List.any_eq_false]
    intro gr hgr
    by_cases h : gr.id = row.graph_id
    · have hgg : gr = gr0 := mem_key_unique GraphRow.id db.graphs hndG hgr hgr0
        (h.trans hid.symm)
      subst hgg
      simp [hres]
    · simp [h]
  have hexists : db.graphs.any (fun gr => gr.id == row.graph_id) = true := by
    rw [List.any_eq_true]
    exact ⟨gr0, hgr0, by simp [hid]⟩
  have hcomp : ∀ m : NodeRow,
      (fun m => if m.id == nid then { m with finished_at := some t } else m) m =
      { m with finished_at := if m.id = nid then some t else m.finished_at } := by
    intro m
    by_cases h1 : m.id = nid <;> simp [h1]
  have hnodes1 : db.nodes.map
      (fun m => if m.id == nid then { m with finished_at := some t } else m) =
      db.nodes.map (fun m =>
        { m with finished_at := if m.id = nid then some t else m.finished_at }) :=
    List.map_congr_left fun a _ => hcomp a
  have hrun := completeNode_second_writer_aux db nid r t row hfind hnotnull hexists
  rw [hnodes1] at hrun
  refine ⟨_, _, hrun, ?_, ?_, ?_⟩
  · -- the graph result is overwritten with the new value
    have h := find_map_key GraphRow.id
      (fun x => if x.id == row.graph_id then { x with result := some r } else x)
      (fun x => by by_cases hc : (x.id == row.graph_id) = true <;> simp [hc])
      db.graphs hndG gr0 hgr0
    have hpred : (fun (x : GraphRow) => x.id == row.graph_id) =
        (fun (x : GraphRow) => x.id == gr0.id) := by
      funext x
      rw [hid]
    rw [hpred, h]
    simp [hid]
  · -- node rows: only finished_at changes; no pending count is touched
    intro m hm
    exact find_map_key NodeRow.id
      (fun m => { m with finished_at := if m.id = nid then some t else m.finished_at })
      (fun x => rfl) db.nodes hndN m hm
  · -- the fan-out re-selects the dependents whose count is already 0
    rw [@List.filter_map NodeRow NodeRow
      (fun m => hasDepOn db m.id row.graph_id && m.pending_dependency_count == 0) _ db.nodes]
    have hpred : db.nodes.filter ((fun m => hasDepOn db m.id row.graph_id &&
          m.pending_dependency_count == 0) ∘ (fun m =>
          { m with finished_at := if m.id = nid then some t else m.finished_at })) =
        db.nodes.filter (fun m => hasDepOn db m.id row.graph_id &&
          m.pending_dependency_count == 0) := by
      apply List.filter_congr
      intro m _
      rfl
    rw [hpred, List.filterMap_map]
    apply filterMap_map_key
    intro m hmf
    have hm : m ∈ db.nodes := List.mem_of_mem_filter hmf
    obtain ⟨grm, hgrmmem, hgrmid⟩ := hfkNG m hm
    have hfindg := find_map_key GraphRow.id
      (fun x => if x.id == row.graph_id then { x with result := some r } else x)
      (fun x => by by_cases hc : (x.id == row.graph_id) = true <;> simp [hc])
      db.graphs hndG grm hgrmmem
    refine ⟨ReadyNode.mk m.id m.trace_context m.broker_params grm.session_id, ?_, rfl⟩
    have hgid : (fun (x : GraphRow) => x.id == m.graph_id) =
        (fun (x : GraphRow) => x.id == grm.id) := by
      funext x
      rw [hgrmid]
    simp only [Function.comp, readyRow]
    rw [hgid, hfindg]
    by_cases hc : (grm.id == row.graph_id) = true <;> simp [hc]

/-- C3 counterexample: in dbA, completing node 0 with result byte 1 writes
graph 0's result; a second complete_node call with result byte 2 overwrites
the already non-null result, so the null-to-non-null transition is not the
only write. -/
theorem complete_node_result_overwritten_cex :
    completeNode dbA 0 [1] 3 = .ok (dbA2, [ReadyNode.mk 1 [] [5] 100]) ∧
    ((dbA2.graphs.find? (fun gr => gr.id == 0)).map GraphRow.result = some (some [1])) ∧
    (∃ db2 ready2, completeNode dbA2 0 [2] 4 = .ok (db2, ready2) ∧
      (db2.graphs.find? (fun gr => gr.id == 0)).map GraphRow.result = some (some [2])) := by
  refine ⟨by rfl, by decide, ?_⟩
  refine ⟨_, _, rfl, ?_⟩
  decide

/-- C3 amended: the null-guarded update governs only the one-time decrement
fan-out; once the graph result is non-null, a later complete_node call on a
node of the graph overwrites the stored result with its value (and leaves
every pending_dependency_count unchanged). -/
theorem complete_node_result_overwrite (db : DB) (nid : Uuid) (r : Bytes) (t : Time)
    (row : NodeRow) (gr0 : GraphRow) (v : Bytes) (hwf : db.WF)
    (hfind : db.nodes.find? (fun n => n.id == nid) = some row)
    (hgr0 : gr0 ∈ db.graphs) (hid : gr0.id = row.graph_id) (hres : gr0.result = some v) :
    ∃ db1 ready, completeNode db nid r t = .ok (db1, ready) ∧
      db1.graphs.find? (fun x => x.id == row.graph_id) = some { gr0 with result := some r } ∧
      (∀ m ∈ db.nodes, db1.nodes.find? (fun x => x.id == m.id) =
        some { m with finished_at := if m.id = nid then some t else m.finished_at }) := by
  obtain ⟨db1, ready, hrun, hgraph, hnodes, _⟩ :=
    completeNode_second_writer_full db nid r t row gr0 v hwf hfind hgr0 hid hres
  exact ⟨db1, ready, hrun, hgraph, hnodes⟩

/-- C3 witness: the amended theorem applied to dbA2, whose graph 0 already
carries result byte 1; completing node 0 again with byte 2 overwrites it. -/
theorem complete_node_result_overwrite_witness :
    dbA2.WF ∧
    ∃ db1 ready, completeNode dbA2 0 [2] 4 = .ok (db1, ready) ∧
      db1.graphs.find? (fun x => x.id == 0) =
        some { id := 0, session_id := 100, trace_context := [], result := some [2] } := by
  refine ⟨by decide, ?_⟩
  obtain ⟨db1, ready, hrun, hgraph, _⟩ :=
    complete_node_result_overwrite dbA2 0 [2] 4
      { id := 0, graph_id := 0, arguments := [], trace_context := [],
        broker_params := [], executor_params := [],
        pending_dependency_count := 0, created_at := 0,
        started_at := none, finished_at := some 3 }
      { id := 0, session_id := 100, trace_context := [], result := some [1] }
      [1] (by decide) (by decide) (by decide) rfl rfl
  exact ⟨db1, ready, hrun, hgraph⟩

/-- C4 counterexample: in dbA, completing node 0 releases node 1; calling
complete_node a second time with the same result returns the same non-empty
fan-out list again instead of an empty one. -/
theorem complete_node_idempotent_cex :
    completeNode dbA 0 [1] 3 = .ok (dbA2, [ReadyNode.mk 1 [] [5] 100]) ∧
    (∃ db2, completeNode dbA2 0 [1] 4 = .ok (db2, [ReadyNode.mk 1 [] [5] 100])) ∧
    [ReadyNode.mk 1 [] [5] 100] ≠ ([] : List ReadyNode) := by
  refine ⟨by rfl, ⟨_, rfl⟩, by decide⟩

/-- C4 amended: a second complete_node call on a node of an already terminal
graph does not decrement any pending_dependency_count again, but its fan-out
list is the set of nodes holding a dependency edge on the graph whose count
is already 0 (the released dependents re-published), not the empty list. -/
theorem complete_node_second_call (db : DB) (nid : Uuid) (r : Bytes) (t : Time)
    (row : NodeRow) (gr0 : GraphRow) (v : Bytes) (hwf : db.WF)
    (hfind : db.nodes.find? (fun n => n.id == nid) = some row)
    (hgr0 : gr0 ∈ db.graphs) (hid : gr0.id = row.graph_id) (hres : gr0.result = some v) :
    ∃ db1 ready, completeNode db nid r t = .ok (db1, ready) ∧
      (∀ m ∈ db.nodes, db1.nodes.find? (fun x => x.id == m.id) =
        some { m with finished_at := if m.id = nid then some t else m.finished_at }) ∧
      ready.map ReadyNode.id = (db.nodes.filter (fun m =>
        hasDepOn db m.id row.graph_id && m.pending_dependency_count == 0)).map NodeRow.id := by
  obtain ⟨db1, ready, hrun, _, hnodes, hready⟩ :=
    completeNode_second_writer_full db nid r t row gr0 v hwf hfind hgr0 hid hres
  exact ⟨db1, ready, hrun, hnodes, hready⟩

/-- C4 witness: the amended theorem applied to dbA2: the repeated completion
leaves node 1's count at 0 and re-returns node 1 in the fan-out. -/
theorem complete_node_second_call_witness :
    dbA2.WF ∧
    ∃ db1 ready, completeNode dbA2 0 [1] 4 = .ok (db1, ready) ∧
      ready.map ReadyNode.id = [1] := by
  refine ⟨by decide, ?_⟩
  obtain ⟨db1, ready, hrun, _, hready⟩ :=
    complete_node_second_call dbA2 0 [1] 4
      { id := 0, graph_id := 0, arguments := [], trace_context := [],
        broker_params := [], executor_params := [],
        pending_dependency_count := 0, created_at := 0,
        started_at := none, finished_at := some 3 }
      { id := 0, session_id := 100, trace_context := [], result := some [1] }
      [1] (by decide) (by decide) (by decide) rfl rfl
  refine ⟨db1, ready, hrun, ?_⟩
  rw [hready]
  decide

/-! C2: the graph id persisted for a node admitted into an existing graph. -/

unseal List.merge List.mergeSort in
/-- C2 (code bug): admitting node 20 into the existing graph 10 (a splice:
is_first_node false, parent node 10, CreatedNode.graph_id = 10) stores the
node row with graph_id = 20, the node's own id, because
PostgresStorage.create_node inserts NodesTable.graph_id from node.id instead
of node.graph_id; no graph row 20 exists, so the row violates the
nodes.graph_id to graphs.id foreign key and the admitted graph is lost. -/
theorem create_node_graph_id_bug :
    (createNode dbF cnF none none none 5).2 = .ok true ∧
    cnF.graph_id = 10 ∧
    (((createNode dbF cnF none none none 5).1.nodes.find? (fun n => n.id == 20)).map
      NodeRow.graph_id = some 20) ∧
    ((createNode dbF cnF none none none 5).1.graphs.all (fun gr => gr.id != 20) = true) ∧
    ¬ (createNode dbF cnF none none none 5).1.WF := by
  exact ⟨rfl, rfl, rfl, rfl, by decide⟩

/-! C5: the pending dependency count stored at admission. -/

theorem find?_append_none {α : Type} (p : α → Bool) {l1 : List α} (l2 : List α)
    (h : l1.find? p = none) : (l1 ++ l2).find? p = l2.find? p := by
  induction l1 with
  | nil => rfl
  | cons a t ih =>
    rw [List.find?_cons] at h
    rcases hc : p a with _ | _
    · rw [List.cons_append, List.find?_cons_of_neg _ (by simp [hc])]
      apply ih
      rwa [hc] at h
    · rw [hc] at h
      cases h

/-- C5: create_node stores pending_dependency_count equal to the number of
dependency graphs whose result is still null at admission (the list of
graphs locked, which is sorted by graph id ascending), returns ready exactly
when that count is 0, and invoke_node publishes the enqueued-node message
for the node exactly when create_node returned ready. -/
theorem create_node_pending_count (db : DB) (node : CreatedNode)
    (graph : Option CreatedGraph) (session : Option CreatedSession)
    (ret : Option Time) (now : Time)
    (hfresh : ∀ m ∈ db.nodes, m.id ≠ node.id)
    (hparent : ∀ p, node.parent_id = some p → db.nodes.any (fun m => m.id == p) = true) :
    ((createNode db node graph session ret now).2 =
      .ok (((node.dependencies.map Prod.fst).filter (fun gid =>
        db.graphs.any (fun gr => gr.id == gid && gr.result == none))).length == 0)) ∧
    (((createNode db node graph session ret now).1.nodes.find?
        (fun n => n.id == node.id)).map NodeRow.pending_dependency_count =
      some (((node.dependencies.map Prod.fst).filter (fun gid =>
        db.graphs.any (fun gr => gr.id == gid && gr.result == none))).length : Int)) ∧
    (pendingDependencyGraphs db node.dependencies).Sorted (· ≤ ·) ∧
    ((invokeNodeAdmit db node graph session ret now).2 =
      .ok ((((node.dependencies.map Prod.fst).filter (fun gid =>
          db.graphs.any (fun gr => gr.id == gid && gr.result == none))).length == 0),
        if ((node.dependencies.map Prod.fst).filter (fun gid =>
          db.graphs.any (fun gr => gr.id == gid && gr.result == none))).length == 0
        then [node.id] else [])) := by
  have hpf : (match node.parent_id with
      | some pid => db.nodes.any (fun m => m.id == pid)
      | none => true) = true := by
    cases hpo : node.parent_id with
    | none => rfl
    | some p => exact hparent p hpo
  have hlen : (pendingDependencyGraphs db node.dependencies).length =
      ((node.dependencies.map Prod.fst).filter (fun gid =>
        db.graphs.any (fun gr => gr.id == gid && gr.result == none))).length :=
    (List.mergeSort_perm _ _).length_eq
  have hres2 : (createNode db node graph session ret now).2 =
      .ok (((node.dependencies.map Prod.fst).filter (fun gid =>
        db.graphs.any (fun gr => gr.id == gid && gr.result == none))).length == 0) := by
    simp only [createNode, hpf, if_true]
    rw [hlen]
  refine ⟨hres2, ?_, ?_, ?_⟩
  · -- the stored count on the freshly inserted row
    cases hpo : node.parent_id with
    | none =>
      simp only [createNode, hpo, hpf, if_true]
      have hnone : db.nodes.find? (fun n => n.id == node.id) = none := by
        rw [List.find?_eq_none]
        intro x hx
        simpa using hfresh x hx
      rw [find?_append_none _ _ hnone, List.find?_cons_of_pos _ (by simp)]
      rw [hlen]
      rfl
    | some p =>
      have hpt : db.nodes.any (fun m => m.id == p) = true := hparent p hpo
      simp only [createNode, hpo, hpt, if_true]
      have hnone : (db.nodes.map
          (fun m => if m.id == p then { m with finished_at := some now } else m)).find?
            (fun n => n.id == node.id) = none := by
        rw [List.find?_eq_none]
        intro x hx
        obtain ⟨y, hy, rfl⟩ := List.mem_map.mp hx
        by_cases hc : (y.id == p) = true <;> simpa [hc] using hfresh y hy
      rw [find?_append_none _ _ hnone, List.find?_cons_of_pos _ (by simp)]
      rw [hlen]
      rfl
  · -- the locked dependency graphs are listed in ascending id order
    exact List.sorted_mergeSort' _
  · -- invoke_node publishes exactly when create_node returned ready
    rcases hc : createNode db node graph session ret now with ⟨db1, res⟩
    have hres : res = .ok (((node.dependencies.map Prod.fst).filter (fun gid =>
        db.graphs.any (fun gr => gr.id == gid && gr.result == none))).length == 0) := by
      have h := hres2
      rw [hc] at h
      exact h
    subst hres
    simp [invokeNodeAdmit, hc]

/-- C5 witness: the theorem applied to dbB and the node cnB, whose data
dependency on the terminal graph 0 is already resolved and whose ordering
dependency on the running graph 1 is pending: the stored count is 1, the
node is not ready and nothing is published. -/
theorem create_node_pending_count_witness :
    (∀ m ∈ dbB.nodes, m.id ≠ cnB.id) ∧
    ((createNode dbB cnB none none none 5).2 = .ok false ∧
      ((createNode dbB cnB none none none 5).1.nodes.find?
        (fun n => n.id == cnB.id)).map NodeRow.pending_dependency_count = some 1 ∧
      (invokeNodeAdmit dbB cnB none none none 5).2 = .ok (false, [])) := by
  refine ⟨by decide, ?_⟩
  obtain ⟨h1, h2, _, h4⟩ :=
    create_node_pending_count dbB cnB none none none 5 (by decide)
      (fun p hp => by cases hp)
  refine ⟨?_, ?_, ?_⟩
  · rw [h1]
    rfl
  · rw [h2]
    rfl
  · rw [h4]
    rfl

/-! C6: start_node error behaviour and the unconditional update of
started_at. -/

/-- C6 counterexample: in dbC the session is already cancelled; start_node
raises SessionCancelled, yet the node's started_at, null before the call,
has been set by the data-modifying CTE that runs unconditionally. -/
theorem start_node_sets_started_at_cex :
    (startNode dbC 0 5).2 = .error (.sessionCancelled 0) ∧
    ((dbC.nodes.find? (fun n => n.id == 0)).map NodeRow.started_at = some none) ∧
    (((startNode dbC 0 5).1.nodes.find? (fun n => n.id == 0)).map NodeRow.started_at =
      some (some 5)) := by
  exact ⟨rfl, rfl, rfl⟩

/-- C6 amended: start_node raises NodeNotFound when no node row matches and
SessionCancelled when the node's session has cancelled_at set, but in every
case, the raising ones included, its update CTE has already set the node's
started_at to the call time. -/
theorem start_node_cancelled (db : DB) (id : Uuid) (now : Time) (hwf : db.WF) :
    (∀ m ∈ db.nodes, (startNode db id now).1.nodes.find? (fun x => x.id == m.id) =
      some { m with started_at := if m.id = id then some now else m.started_at }) ∧
    (db.nodes.find? (fun n => n.id == id) = none →
      (startNode db id now).2 = .error (.nodeNotFound id)) ∧
    (∀ n gr s, db.nodes.find? (fun x => x.id == id) = some n →
      db.graphs.find? (fun x => x.id == n.graph_id) = some gr →
      db.sessions.find? (fun x => x.id == gr.session_id) = some s →
      s.cancelled_at.isSome = true →
      (startNode db id now).2 = .error (.sessionCancelled id)) := by
  obtain ⟨hndN, _, _, _, _, _⟩ := hwf
  have hcomp : ∀ m : NodeRow,
      (fun m => if m.id == id then { m with started_at := some now } else m) m =
      { m with started_at := if m.id = id then some now else m.started_at } := by
    intro m
    by_cases h1 : m.id = id <;> simp [h1]
  have hfst : (startNode db id now).1 =
      { db with
        nodes := db.nodes.map
          (fun m => if m.id == id then { m with started_at := some now } else m) } := by
    unfold startNode
    dsimp only
    split
    · rfl
    · split <;> rfl
  refine ⟨?_, ?_, ?_⟩
  · intro m hm
    rw [hfst]
    have hmap : db.nodes.map
        (fun m => if m.id == id then { m with started_at := some now } else m) =
        db.nodes.map (fun m =>
          { m with started_at := if m.id = id then some now else m.started_at }) :=
      List.map_congr_left fun a _ => hcomp a
    rw [hmap]
    exact find_map_key NodeRow.id
      (fun m => { m with started_at := if m.id = id then some now else m.started_at })
      (fun x => rfl) db.nodes hndN m hm
  · intro hnone
    unfold startNode
    rw [hnone]
    rfl
  · intro n gr s hn hg hs hcanc
    unfold startNode
    rw [hn, Option.some_bind, hg, Option.some_bind, hs]
    simp [hcanc]

/-- C6 witness: the amended theorem applied to dbC, whose session is
cancelled: start_node raises SessionCancelled and node 0's row now carries
started_at = 5. -/
theorem start_node_cancelled_witness :
    dbC.WF ∧
    ((startNode dbC 0 5).2 = .error (.sessionCancelled 0) ∧
      (startNode dbC 0 5).1.nodes.find? (fun x => x.id == 0) =
        some { id := 0, graph_id := 0, arguments := [], trace_context := [],
               broker_params := [], executor_params := [],
               pending_dependency_count := 0, created_at := 0,
               started_at := some 5, finished_at := none }) := by
  refine ⟨by decide, ?_, ?_⟩
  · exact (start_node_cancelled dbC 0 5 (by decide)).2.2
      { id := 0, graph_id := 0, arguments := [], trace_context := [],
        broker_params := [], executor_params := [],
        pending_dependency_count := 0, created_at := 0,
        started_at := none, finished_at := none }
      { id := 0, session_id := 100, trace_context := [7], result := none }
      { id := 100, retention := none, cancelled_at := some 9 }
      rfl rfl rfl rfl
  · have h := (start_node_cancelled dbC 0 5 (by decide)).1
      { id := 0, graph_id := 0, arguments := [], trace_context := [],
        broker_params := [], executor_params := [],
        pending_dependency_count := 0, created_at := 0,
        started_at := none, finished_at := none }
      (by decide)
    exact h

/-! C7: cancel_session outcomes and the concurrent broadcast. -/

/-- C7 counterexample: cancelling the already-cancelled session of dbD makes
the storage call raise SessionCancelled, yet the interactor's concurrent
gather has published the session-cancelled broadcast anyway, so the
broadcast is not published only when the update succeeded. -/
theorem cancel_session_broadcast_cex :
    (interactorCancelSession dbD [] 100 5).2 = .error (.sessionCancelled 100) ∧
    (interactorCancelSession dbD [] 100 5).1.2 = [100] := by
  exact ⟨rfl, rfl⟩

/-- C7 amended: the storage's cancel_session sets cancelled_at only when it
is null and a graph of the session is still running, raising SessionNotFound
or SessionCancelled or SessionFinished otherwise and leaving the stored
state unchanged when it raises; the interactor, however, publishes the
session-cancelled broadcast concurrently with the storage call, so the
broadcast goes out whatever the storage outcome. -/
theorem cancel_session_outcomes (db : DB) (id : Uuid) (now : Time) (bs : List Uuid)
    (hwf : db.WF) :
    (db.sessions.find? (fun s => s.id == id) = none →
      cancelSession db id now = (db, .error (.sessionNotFound id))) ∧
    (∀ s, db.sessions.find? (fun s2 => s2.id == id) = some s →
      (s.cancelled_at.isSome = true →
        cancelSession db id now = (db, .error (.sessionCancelled id))) ∧
      (s.cancelled_at = none →
        db.graphs.any (fun gr => gr.session_id == id && gr.result == none) = false →
        cancelSession db id now = (db, .error (.sessionFinished id))) ∧
      (s.cancelled_at = none →
        db.graphs.any (fun gr => gr.session_id == id && gr.result == none) = true →
        (cancelSession db id now).2 = .ok true ∧
        (cancelSession db id now).1.sessions.find? (fun s2 => s2.id == id) =
          some { s with cancelled_at := some now })) ∧
    ((interactorCancelSession db bs id now).1.2 = bs ++ [id]) := by
  obtain ⟨_, _, hndS, _, _, _⟩ := hwf
  refine ⟨?_, ?_, ?_⟩
  · intro hnone
    have hmatched : (db.sessions.any (fun s => s.id == id && s.cancelled_at == none)) = false := by
      rw [List.any_eq_false]
      intro s hs
      have := List.find?_eq_none.mp hnone s hs
      simp only [Bool.and_eq_true, not_and]
      intro h
      exact absurd h this
    unfold cancelSession
    rw [hmatched, hnone]
    rfl
  · intro s hsfind
    have hsmem : s ∈ db.sessions := List.mem_of_find?_eq_some hsfind
    have hsid : (s.id == id) = true := by simpa using List.find?_some hsfind
    refine ⟨?_, ?_, ?_⟩
    · intro hcanc
      have hmatched : (db.sessions.any (fun s2 => s2.id == id && s2.cancelled_at == none)) = false := by
        rw [List.any_eq_false]
        intro s2 hs2
        simp only [Bool.and_eq_true, not_and, beq_iff_eq]
        intro hid2 hres2
        have : s2 = s := mem_key_unique SessionRow.id db.sessions hndS hs2 hsmem
          (by rw [hid2]; exact (beq_iff_eq.mp hsid).symm)
        subst this
        rw [hres2] at hcanc
        cases hcanc
      unfold cancelSession
      rw [hmatched, hsfind]
      simp [hcanc]
    · intro hnil hnorun
      have hmatched : (db.sessions.any (fun s2 => s2.id == id && s2.cancelled_at == none)
          && db.graphs.any (fun gr => gr.session_id == id && gr.result == none)) = false := by
        rw [hnorun, Bool.and_false]
      unfold cancelSession
      dsimp only
      rw [hmatched, hsfind]
      simp [hnil]
    · intro hnil hrun
      have hmatched : (db.sessions.any (fun s2 => s2.id == id && s2.cancelled_at == none)
          && db.graphs.any (fun gr => gr.session_id == id && gr.result == none)) = true := by
        rw [hrun, Bool.and_true, List.any_eq_true]
        exact ⟨s, hsmem, by simp [beq_iff_eq.mp hsid, hnil]⟩
      constructor
      · unfold cancelSession
        dsimp only
        rw [hmatched]
        rfl
      · unfold cancelSession
        dsimp only
        rw [hmatched]
        simp only [if_true]
        have hcomp2 : ∀ s2 ∈ db.sessions,
            (fun s2 => if s2.id == id && s2.cancelled_at == none
              then { s2 with cancelled_at := some now } else s2) s2 =
            (fun s2 => if s2.id = s.id
              then { s2 with cancelled_at := some now } else s2) s2 := by
          intro s2 hs2
          by_cases hid2 : s2.id = s.id
          · have : s2 = s := mem_key_unique SessionRow.id db.sessions hndS hs2 hsmem hid2
            subst this
            simp [hsid, hnil, hid2]
          · have hne : (s2.id == id) = false := by
              simp only [beq_eq_false_iff_ne, ne_eq]
              intro h
              exact hid2 (h.trans (beq_iff_eq.mp hsid).symm)
            simp [hne, hid2]
        rw [List.map_congr_left hcomp2]
        have h := find_map_key SessionRow.id
          (fun s2 => if s2.id = s.id then { s2 with cancelled_at := some now } else s2)
          (fun x => by by_cases hc : x.id = s.id <;> simp [hc]) db.sessions hndS s hsmem
        have hpred : (fun (x : SessionRow) => x.id == id) =
            (fun (x : SessionRow) => x.id == s.id) := by
          funext x
          rw [beq_iff_eq.mp hsid]
        rw [hpred, h]
        simp
  · rfl

/-- C7 witness: the amended theorem applied to dbE (live session, graph
running): the update succeeds, cancelled_at is written, and the broadcast
list has grown; and to the error conjunct via the concrete find. -/
theorem cancel_session_outcomes_witness :
    dbE.WF ∧
    ((cancelSession dbE 100 5).2 = .ok true ∧
      (cancelSession dbE 100 5).1.sessions.find? (fun s2 => s2.id == 100) =
        some { id := 100, retention := none, cancelled_at := some 5 } ∧
      (interactorCancelSession dbE [] 100 5).1.2 = [100]) := by
  refine ⟨by decide, ?_⟩
  obtain ⟨_, hsome, hbro⟩ := cancel_session_outcomes dbE 100 5 [] (by decide)
  obtain ⟨_, _, hsucc⟩ := hsome { id := 100, retention := none, cancelled_at := none } rfl
  obtain ⟨hok, hfind⟩ := hsucc rfl (by decide)
  exact ⟨hok, hfind, hbro⟩

/-! C8: deduplication of admissions within one orchestration. -/

theorem OrchStep_rfl (a : OrchCtx) : OrchStep a a := by
  refine ⟨rfl, [], [], rfl, (List.append_nil _).symm, List.nodup_nil, ?_, ?_⟩
  · intro i hi
    cases hi
  · intro i hi
    cases hi

theorem OrchStep_trans {a b c : OrchCtx} (h1 : OrchStep a b) (h2 : OrchStep b c) :
    OrchStep a c := by
  obtain ⟨hs1, nC1, nR1, hC1, hR1, hnd1, hm1, hcr1⟩ := h1
  obtain ⟨hs2, nC2, nR2, hC2, hR2, hnd2, hm2, hcr2⟩ := h2
  refine ⟨hs2.trans hs1, nC2 ++ nC1, nR1 ++ nR2, ?_, ?_, ?_, ?_, ?_⟩
  · rw [hC2, hC1, List.append_assoc]
  · rw [hR2, hR1, List.append_assoc]
  · rw [List.nodup_append]
    refine ⟨hnd1, hnd2, ?_⟩
    intro x hx1 hx2
    exact (hm2 x hx2).1 (hm1 x hx1).2
  · intro i hi
    rcases List.mem_append.mp hi with h | h
    · refine ⟨(hm1 i h).1, ?_⟩
      rw [hC2]
      exact List.mem_append_right _ (hm1 i h).2
    · refine ⟨?_, (hm2 i h).2⟩
      intro hia
      apply (hm2 i h).1
      rw [hC1]
      exact List.mem_append_right _ hia
  · intro i hi
    rcases List.mem_append.mp hi with h | h
    · exact List.mem_append_right _ (hcr2 i h)
    · exact List.mem_append_left _ (hcr1 i h)

mutual

theorem invokeNode_step (c : Call) (ctx : OrchCtx) :
    OrchStep ctx (invokeNodeModel c ctx).2 ∧ (invokeNodeModel c ctx).1 = ctx.sessionId := by
  cases c with
  | mk i ds =>
    by_cases hmem : i ∈ ctx.createdNodes
    · simp only [invokeNodeModel, hmem, if_true]
      exact ⟨OrchStep_rfl ctx, trivial⟩
    · have hd := invokeDeps_step ds { ctx with createdNodes := i :: ctx.createdNodes }
      simp only [invokeNodeModel, hmem, if_false]
      obtain ⟨hs, nC, nR, hC, hR, hnd, hm, hcr⟩ := hd
      constructor
      · refine ⟨hs, nC ++ [i], nR ++ [i], ?_, ?_, ?_, ?_, ?_⟩
        · rw [hC, List.append_assoc]
          rfl
        · rw [hR, List.append_assoc]
        · rw [List.nodup_append]
          refine ⟨hnd, List.nodup_singleton i, ?_⟩
          intro x hx hxi
          have hxeq : x = i := by simpa using hxi
          subst hxeq
          exact (hm _ hx).1 (List.mem_cons_self _ _)
        · intro j hj
          rcases List.mem_append.mp hj with h | h
          · refine ⟨?_, (hm j h).2⟩
            intro hja
            exact (hm j h).1 (by exact List.mem_cons_of_mem _ hja)
          · have hji : j = i := by simpa using h
            subst hji
            refine ⟨hmem, ?_⟩
            rw [hC]
            exact List.mem_append_right _ (List.mem_cons_self _ _)
        · intro j hj
          rcases List.mem_append.mp hj with h | h
          · exact List.mem_append_left _ (hcr j h)
          · exact List.mem_append_right _ h
      · exact hs

theorem invokeDeps_step (ds : List (Call × Bool)) (ctx : OrchCtx) :
    OrchStep ctx (invokeDepsModel ds ctx) := by
  cases ds with
  | nil => exact OrchStep_rfl ctx
  | cons p rest =>
    obtain ⟨d, b⟩ := p
    exact OrchStep_trans (invokeNode_step d ctx).1 (invokeDeps_step rest _)

end

mutual

theorem invokeNode_rows (c : Call) (ctx : OrchCtx) :
    ∀ j ∈ (invokeNodeModel c ctx).2.rows, j ∈ ctx.rows ∨ j ∈ callIds c := by
  cases c with
  | mk i ds =>
    intro j hj
    by_cases hmem : i ∈ ctx.createdNodes
    · rw [invokeNodeModel] at hj
      rw [if_pos hmem] at hj
      exact Or.inl hj
    · rw [invokeNodeModel] at hj
      rw [if_neg hmem] at hj
      rcases List.mem_append.mp hj with h | h
      · rcases invokeDeps_rows ds _ j h with h2 | h2
        · exact Or.inl h2
        · exact Or.inr (by rw [callIds]; exact List.mem_cons_of_mem _ h2)
      · have hji : j = i := by simpa using h
        subst hji
        exact Or.inr (by rw [callIds]; exact List.mem_cons_self _ _)

theorem invokeDeps_rows (ds : List (Call × Bool)) (ctx : OrchCtx) :
    ∀ j ∈ (invokeDepsModel ds ctx).rows, j ∈ ctx.rows ∨ j ∈ callIdsOf ds := by
  cases ds with
  | nil =>
    intro j hj
    exact Or.inl hj
  | cons p rest =>
    obtain ⟨d, b⟩ := p
    intro j hj
    rw [invokeDepsModel] at hj
    rcases invokeDeps_rows rest _ j hj with h | h
    · rcases invokeNode_rows d ctx j h with h2 | h2
      · exact Or.inl h2
      · exact Or.inr (by rw [callIdsOf]; exact List.mem_append_left _ h2)
    · exact Or.inr (by rw [callIdsOf]; exact List.mem_append_right _ h)

end

theorem invokeNode_root_row (c : Call) (ctx : OrchCtx) (h : c.cid ∉ ctx.createdNodes) :
    c.cid ∈ (invokeNodeModel c ctx).2.rows := by
  cases c with
  | mk i ds =>
    rw [Call.cid] at *
    rw [invokeNodeModel, if_neg h]
    exact List.mem_append_right _ (List.mem_cons_self _ _)

/-- C8: within one orchestration, an id that already has an entry in the
context map is not admitted again: invoke_node returns the cached session id
and neither the map nor the storage rows change; and running a whole call
tree from a fresh context produces duplicate-free storage rows that are
exactly the admitted entries of the context map, all of them ids of the
tree, with the root admitted; hence one node row per admitted builder id no
matter how many positions reuse a call. -/
theorem invoke_node_dedup :
    (∀ (c : Call) (ctx : OrchCtx), c.cid ∈ ctx.createdNodes →
      invokeNodeModel c ctx = (ctx.sessionId, ctx)) ∧
    (∀ (c : Call) (sid : Uuid),
      (invokeNodeModel c ⟨sid, [], []⟩).1 = sid ∧
      (invokeNodeModel c ⟨sid, [], []⟩).2.rows.Nodup ∧
      (∀ j, j ∈ (invokeNodeModel c ⟨sid, [], []⟩).2.rows ↔
        j ∈ (invokeNodeModel c ⟨sid, [], []⟩).2.createdNodes) ∧
      (∀ j ∈ (invokeNodeModel c ⟨sid, [], []⟩).2.rows, j ∈ callIds c) ∧
      c.cid ∈ (invokeNodeModel c ⟨sid, [], []⟩).2.rows) := by
  constructor
  · intro c ctx hmem
    cases c with
    | mk i ds =>
      rw [Call.cid] at hmem
      rw [invokeNodeModel, if_pos hmem]
  · intro c sid
    obtain ⟨hstep, hfst⟩ := invokeNode_step c ⟨sid, [], []⟩
    obtain ⟨hs, nC, nR, hC, hR, hnd, hm, hcr⟩ := hstep
    have hrowseq : (invokeNodeModel c ⟨sid, [], []⟩).2.rows = nR := by
      rw [hR]
      rfl
    refine ⟨hfst, ?_, ?_, ?_, ?_⟩
    · rw [hrowseq]
      exact hnd
    · intro j
      constructor
      · intro hj
        rw [hrowseq] at hj
        exact (hm j hj).2
      · intro hj
        rw [hC, List.append_nil] at hj
        rw [hrowseq]
        exact hcr j hj
    · intro j hj
      rcases invokeNode_rows c ⟨sid, [], []⟩ j hj with h | h
      · cases h
      · exact h
    · apply invokeNode_root_row
      intro h
      cases h

/-- C8 witness: the call tree that uses the call with builder id 2 in two
argument positions of the root 1: one orchestration admits exactly one row
for id 2, and re-invoking id 2 against the final context map is a no-op that
returns the cached session id. -/
theorem invoke_node_dedup_witness :
    (invokeNodeModel (.mk 1 [(.mk 2 [], true), (.mk 2 [], false)]) ⟨9, [], []⟩).2.rows =
      [2, 1] ∧
    ((Call.mk 2 []).cid ∈ (OrchCtx.mk 9 [2, 1] [2, 1]).createdNodes ∧
      invokeNodeModel (.mk 2 []) ⟨9, [2, 1], [2, 1]⟩ = (9, ⟨9, [2, 1], [2, 1]⟩)) ∧
    (invokeNodeModel (.mk 1 [(.mk 2 [], true), (.mk 2 [], false)]) ⟨9, [], []⟩).2.rows.Nodup := by
  refine ⟨?_, ⟨?_, ?_⟩, ?_⟩
  · simp [invokeNodeModel, invokeDepsModel]
  · decide
  · exact invoke_node_dedup.1 (.mk 2 []) ⟨9, [2, 1], [2, 1]⟩ (by decide)
  · exact (invoke_node_dedup.2 (.mk 1 [(.mk 2 [], true), (.mk 2 [], false)]) 9).2.1

/-! C10: exceptional completion of a pending orchestration entry. -/

/-- C10: a pending entry completed exceptionally on scope exit makes every
waiter re-raise the stored exception instead of blocking (a pending entry
blocks, an exceptionally completed one raises, a set one yields the value);
and a set entry can be set at most once: setting an already set entry, in
particular one that bears a value, raises RuntimeError. -/
theorem event_with_value_exceptional :
    (∀ (E : Type), (EventWithValue.init : EventWithValue Uuid E).waitResult = none) ∧
    (∀ (E : Type) (e : E),
      (invokeEntryAfter (Except.error e) : EventWithValue Uuid E).waitResult =
        some (.error e)) ∧
    (∀ (E : Type) (sid : Uuid),
      (invokeEntryAfter (Except.ok sid) : EventWithValue Uuid E).waitResult =
        some (.ok (some sid))) ∧
    (∀ (V E : Type) (ev : EventWithValue V E) (v : V), ev.is_set = true →
      ev.setValue v = .error ()) ∧
    (∀ (V E : Type) (ev ev2 : EventWithValue V E) (v w : V),
      ev.setValue v = .ok ev2 → ev2.setValue w = .error ()) := by
  refine ⟨fun E => rfl, fun E e => rfl, fun E sid => rfl, ?_, ?_⟩
  · intro V E ev v hset
    simp [EventWithValue.setValue, hset]
  · intro V E ev ev2 v w hok
    by_cases hset : ev.is_set = true
    · rw [EventWithValue.setValue, if_pos hset] at hok
      cases hok
    · rw [EventWithValue.setValue, if_neg hset] at hok
      cases hok
      simp [EventWithValue.setValue]

/-- C10 witness: a fresh entry set to session id 7 can not be set again. -/
theorem event_with_value_exceptional_witness :
    ((EventWithValue.init : EventWithValue Uuid Unit).setValue 7 =
      .ok { is_set := true, value := some 7, exception := none }) ∧
    ({ is_set := true, value := some 7, exception := none } :
      EventWithValue Uuid Unit).setValue 8 = .error () := by
  refine ⟨rfl, ?_⟩
  exact event_with_value_exceptional.2.2.2.2 Uuid Unit EventWithValue.init
    { is_set := true, value := some 7, exception := none } 7 8 rfl

/-! C9: byte-level lemmas for the wire format. -/

theorem leBytes_length (w : Nat) : ∀ v, (leBytes w v).length = w := by
  induction w with
  | zero => intro v; rfl
  | succ n ih => intro v; simp [leBytes, ih]

theorem beBytes_length (w v : Nat) : (beBytes w v).length = w := by
  simp [beBytes, leBytes_length]

theorem leVal_leBytes (w : Nat) : ∀ v, v < 256 ^ w → leVal (leBytes w v) = v := by
  induction w with
  | zero =>
    intro v h
    simp only [pow_zero] at h
    interval_cases v
    rfl
  | succ n ih =>
    intro v h
    have hp : 256 ^ (n + 1) = 256 * 256 ^ n := by ring
    rw [hp] at h
    rw [leBytes, leVal, ih (v / 256) (by omega)]
    omega

theorem beVal_beBytes (w v : Nat) (h : v < 256 ^ w) : beVal (beBytes w v) = v := by
  rw [beVal, beBytes, List.reverse_reverse]
  exact leVal_leBytes w v h

theorem readBytes_append (n : Nat) (a rest : List Nat) (h : a.length = n) :
    readBytes n (a ++ rest) = some (a, rest) := by
  subst h
  rw [readBytes, if_pos (by simp)]
  rw [List.take_left, List.drop_left]

theorem readBytes_one (b : Nat) (rest : List Nat) :
    readBytes 1 (b :: rest) = some ([b], rest) :=
  readBytes_append 1 [b] rest rfl

theorem beVal_one (b : Nat) : beVal [b] = b := by
  simp [beVal, leVal]

theorem readLenPayload_append (w n : Nat) (payload rest : List Nat)
    (hlen : payload.length = n) (h : n < 256 ^ w) :
    readLenPayload w (beBytes w n ++ (payload ++ rest)) = some (payload, rest) := by
  rw [readLenPayload, readBytes_append _ _ _ (beBytes_length w n), Option.some_bind,
    beVal_beBytes w n h, readBytes_append _ _ _ hlen]

theorem flatten_length_16 (xs : List (List Nat)) (h : ∀ b ∈ xs, b.length = 16) :
    xs.flatten.length = 16 * xs.length := by
  induction xs with
  | nil => simp
  | cons a t ih =>
    simp only [List.flatten_cons, List.length_append, List.length_cons,
      h a (by simp), ih (fun b hb => h b (by simp [hb]))]
    ring

theorem chunk16_flatten (bs : List (List Nat)) (h : ∀ b ∈ bs, b.length = 16) :
    chunk16 bs.flatten = bs := by
  induction bs with
  | nil => rw [List.flatten_nil, chunk16]; rfl
  | cons a t ih =>
    have ha : a.length = 16 := h a (by simp)
    rw [List.flatten_cons, chunk16]
    have hne : (a ++ t.flatten).isEmpty = false := by
      rw [List.isEmpty_eq_false_iff_exists_mem]
      exact ⟨a.head (by intro hnil; rw [hnil] at ha; cases ha),
        by exact List.mem_append_left _ (List.head_mem _)⟩
    rw [hne]
    simp only [Bool.false_eq_true, if_false]
    rw [show (16 : Nat) = a.length from ha.symm, List.take_left, List.drop_left,
      ih (fun b hb => h b (by simp [hb]))]

/-! Evaluation lemmas for decodeBody, one per header byte family. -/

theorem skipBranch {c : Prop} [Decidable c] (hnc : Not c) {α : Sort u} {t e : α} :
    (if c then t else e) = e := if_neg hnc

theorem decodeBody_posfix (f b : Nat) (rest : List Nat) (h : b ≤ 0x7f) :
    decodeBody f b rest = some (.int b, rest) := by
  unfold decodeBody
  rw [if_pos h]

theorem decodeBody_fixmap (f b : Nat) (rest : List Nat) (h1 : 0x80 ≤ b) (h2 : b ≤ 0x8f) :
    decodeBody f b rest = (decodeMapN f (b - 0x80) rest).map fun q => (.map q.1, q.2) := by
  unfold decodeBody
  rw [if_neg (by omega), if_pos h2]

theorem decodeBody_fixarr (f b : Nat) (rest : List Nat) (h1 : 0x90 ≤ b) (h2 : b ≤ 0x9f) :
    decodeBody f b rest = (decodeArrN f (b - 0x90) rest).map fun q => (.arr q.1, q.2) := by
  unfold decodeBody
  rw [if_neg (by omega), if_neg (by omega), if_pos h2]

theorem decodeBody_fixstr (f b : Nat) (rest : List Nat) (h1 : 0xa0 ≤ b) (h2 : b ≤ 0xbf) :
    decodeBody f b rest = (readBytes (b - 0xa0) rest).map fun p => (.str p.1, p.2) := by
  unfold decodeBody
  rw [if_neg (by omega), if_neg (by omega), if_neg (by omega), if_pos h2]

theorem decodeBody_xc0 (f : Nat) (rest : List Nat) :
    decodeBody f 0xc0 rest = some (.nil, rest) := by
  unfold decodeBody
  rw [if_neg (by decide), if_neg (by decide), if_neg (by decide), if_neg (by decide), if_pos rfl]

theorem decodeBody_xc2 (f : Nat) (rest : List Nat) :
    decodeBody f 0xc2 rest = some (.bool false, rest) := by
  unfold decodeBody
  rw [if_neg (by decide), if_neg (by decide), if_neg (by decide), if_neg (by decide), if_neg (by decide), if_pos rfl]

theorem decodeBody_xc3 (f : Nat) (rest : List Nat) :
    decodeBody f 0xc3 rest = some (.bool true, rest) := by
  unfold decodeBody
  rw [if_neg (by decide), if_neg (by decide), if_neg (by decide), if_neg (by decide), if_neg (by decide), if_neg (by decide), if_pos rfl]

theorem decodeBody_xc4 (f : Nat) (rest : List Nat) :
    decodeBody f 0xc4 rest = (readLenPayload 1 rest).map fun p => (.bin p.1, p.2) := by
  unfold decodeBody
  rw [if_neg (by decide), if_neg (by decide), if_neg (by decide), if_neg (by decide), if_neg (by decide), if_neg (by decide), if_neg (by decide), if_pos rfl]

theorem decodeBody_xc5 (f : Nat) (rest : List Nat) :
    decodeBody f 0xc5 rest = (readLenPayload 2 rest).map fun p => (.bin p.1, p.2) := by
  unfold decodeBody
  rw [if_neg (by decide), if_neg (by decide), if_neg (by decide), if_neg (by decide), if_neg (by decide), if_neg (by decide), if_neg (by decide), if_neg (by decide), if_pos rfl]

theorem decodeBody_xc6 (f : Nat) (rest : List Nat) :
    decodeBody f 0xc6 rest = (readLenPayload 4 rest).map fun p => (.bin p.1, p.2) := by
  unfold decodeBody
  rw [if_neg (by decide), if_neg (by decide), if_neg (by decide), if_neg (by decide), if_neg (by decide), if_neg (by decide), if_neg (by decide), if_neg (by decide), if_neg (by decide), if_pos rfl]

theorem decodeBody_xc7 (f : Nat) (rest : List Nat) :
    decodeBody f 0xc7 rest = (readBytes 1 rest).bind fun lb => (readBytes 1 lb.2).bind fun t =>
      (readBytes (beVal lb.1) t.2).map fun p => (.ext (sintOf 1 (beVal t.1)) p.1, p.2) := by
  unfold decodeBody
  rw [if_neg (by decide), if_neg (by decide), if_neg (by decide), if_neg (by decide), if_neg (by decide), if_neg (by decide), if_neg (by decide), if_neg (by decide), if_neg (by decide), if_neg (by decide), if_pos rfl]

theorem decodeBody_xc8 (f : Nat) (rest : List Nat) :
    decodeBody f 0xc8 rest = (readBytes 2 rest).bind fun lb => (readBytes 1 lb.2).bind fun t =>
      (readBytes (beVal lb.1) t.2).map fun p => (.ext (sintOf 1 (beVal t.1)) p.1, p.2) := by
  unfold decodeBody
  rw [if_neg (by decide), if_neg (by decide), if_neg (by decide), if_neg (by decide), if_neg (by decide), if_neg (by decide), if_neg (by decide), if_neg (by decide), if_neg (by decide), if_neg (by decide), if_neg (by decide), if_pos rfl]

theorem decodeBody_xc9 (f : Nat) (rest : List Nat) :
    decodeBody f 0xc9 rest = (readBytes 4 rest).bind fun lb => (readBytes 1 lb.2).bind fun t =>
      (readBytes (beVal lb.1) t.2).map fun p => (.ext (sintOf 1 (beVal t.1)) p.1, p.2) := by
  unfold decodeBody
  rw [if_neg (by decide), if_neg (by decide), if_neg (by decide), if_neg (by decide), if_neg (by decide), if_neg (by decide), if_neg (by decide), if_neg (by decide), if_neg (by decide), if_neg (by decide), if_neg (by decide), if_neg (by decide), if_pos rfl]

theorem decodeBody_xcb (f : Nat) (rest : List Nat) :
    decodeBody f 0xcb rest = (readBytes 8 rest).map fun p => (.float (beVal p.1), p.2) := by
  unfold decodeBody
  rw [if_neg (by decide), if_neg (by decide), if_neg (by decide), if_neg (by decide), if_neg (by decide), if_neg (by decide), if_neg (by decide), if_neg (by decide), if_neg (by decide), if_neg (by decide), if_neg (by decide), if_neg (by decide), if_neg (by decide), if_pos rfl]

theorem decodeBody_xcc (f : Nat) (rest : List Nat) :
    decodeBody f 0xcc rest = (readBytes 1 rest).map fun p => (.int (beVal p.1), p.2) := by
  unfold decodeBody
  rw [if_neg (by decide), if_neg (by decide), if_neg (by decide), if_neg (by decide), if_neg (by decide), if_neg (by decide), if_neg (by decide), if_neg (by decide), if_neg (by decide), if_neg (by decide), if_neg (by decide), if_neg (by decide), if_neg (by decide), if_neg (by decide), if_pos rfl]

theorem decodeBody_xcd (f : Nat) (rest : List Nat) :
    decodeBody f 0xcd rest = (readBytes 2 rest).map fun p => (.int (beVal p.1), p.2) := by
  unfold decodeBody
  rw [if_neg (by decide), if_neg (by decide), if_neg (by decide), if_neg (by decide), if_neg (by decide), if_neg (by decide), if_neg (by decide), if_neg (by decide), if_neg (by decide), if_neg (by decide), if_neg (by decide), if_neg (by decide), if_neg (by decide), if_neg (by decide), if_neg (by decide), if_pos rfl]

theorem decodeBody_xce (f : Nat) (rest : List Nat) :
    decodeBody f 0xce rest = (readBytes 4 rest).map fun p => (.int (beVal p.1), p.2) := by
  unfold decodeBody
  rw [if_neg (by decide), if_neg (by decide), if_neg (by decide), if_neg (by decide), if_neg (by decide), if_neg (by decide), if_neg (by decide), if_neg (by decide), if_neg (by decide), if_neg (by decide), if_neg (by decide), if_neg (by decide), if_neg (by decide), if_neg (by decide), if_neg (by decide), if_neg (by decide), if_pos rfl]

theorem decodeBody_xcf (f : Nat) (rest : List Nat) :
    decodeBody f 0xcf rest = (readBytes 8 rest).map fun p => (.int (beVal p.1), p.2) := by
  unfold decodeBody
  rw [if_neg (by decide), if_neg (by decide), if_neg (by decide), if_neg (by decide), if_neg (by decide), if_neg (by decide), if_neg (by decide), if_neg (by decide), if_neg (by decide), if_neg (by decide), if_neg (by decide), if_neg (by decide), if_neg (by decide), if_neg (by decide), if_neg (by decide), if_neg (by decide), if_neg (by decide), if_pos rfl]

theorem decodeBody_xd0 (f : Nat) (rest : List Nat) :
    decodeBody f 0xd0 rest = (readBytes 1 rest).map fun p => (.int (sintOf 1 (beVal p.1)), p.2) := by
  unfold decodeBody
  rw [if_neg (by decide), if_neg (by decide), if_neg (by decide), if_neg (by decide), if_neg (by decide), if_neg (by decide), if_neg (by decide), if_neg (by decide), if_neg (by decide), if_neg (by decide), if_neg (by decide), if_neg (by decide), if_neg (by decide), if_neg (by decide), if_neg (by decide), if_neg (by decide), if_neg (by decide), if_neg (by decide), if_pos rfl]

theorem decodeBody_xd1 (f : Nat) (rest : List Nat) :
    decodeBody f 0xd1 rest = (readBytes 2 rest).map fun p => (.int (sintOf 2 (beVal p.1)), p.2) := by
  unfold decodeBody
  rw [if_neg (by decide), if_neg (by decide), if_neg (by decide), if_neg (by decide), if_neg (by decide), if_neg (by decide), if_neg (by decide), if_neg (by decide), if_neg (by decide), if_neg (by decide), if_neg (by decide), if_neg (by decide), if_neg (by decide), if_neg (by decide), if_neg (by decide), if_neg (by decide), if_neg (by decide), if_neg (by decide), if_neg (by decide), if_pos rfl]

theorem decodeBody_xd2 (f : Nat) (rest : List Nat) :
    decodeBody f 0xd2 rest = (readBytes 4 rest).map fun p => (.int (sintOf 4 (beVal p.1)), p.2) := by
  unfold decodeBody
  rw [if_neg (by decide), if_neg (by decide), if_neg (by decide), if_neg (by decide), if_neg (by decide), if_neg (by decide), if_neg (by decide), if_neg (by decide), if_neg (by decide), if_neg (by decide), if_neg (by decide), if_neg (by decide), if_neg (by decide), if_neg (by decide), if_neg (by decide), if_neg (by decide), if_neg (by decide), if_neg (by decide), if_neg (by decide), if_neg (by decide), if_pos rfl]

theorem decodeBody_xd3 (f : Nat) (rest : List Nat) :
    decodeBody f 0xd3 rest = (readBytes 8 rest).map fun p => (.int (sintOf 8 (beVal p.1)), p.2) := by
  unfold decodeBody
  rw [if_neg (by decide), if_neg (by decide), if_neg (by decide), if_neg (by decide), if_neg (by decide), if_neg (by decide), if_neg (by decide), if_neg (by decide), if_neg (by decide), if_neg (by decide), if_neg (by decide), if_neg (by decide), if_neg (by decide), if_neg (by decide), if_neg (by decide), if_neg (by decide), if_neg (by decide), if_neg (by decide), if_neg (by decide), if_neg (by decide), if_neg (by decide), if_pos rfl]

theorem decodeBody_xd4 (f : Nat) (rest : List Nat) :
    decodeBody f 0xd4 rest = (readBytes 1 rest).bind fun t => (readBytes 1 t.2).map fun p =>
      (.ext (sintOf 1 (beVal t.1)) p.1, p.2) := by
  unfold decodeBody
  rw [if_neg (by decide), if_neg (by decide), if_neg (by decide), if_neg (by decide), if_neg (by decide), if_neg (by decide), if_neg (by decide), if_neg (by decide), if_neg (by decide), if_neg (by decide), if_neg (by decide), if_neg (by decide), if_neg (by decide), if_neg (by decide), if_neg (by decide), if_neg (by decide), if_neg (by decide), if_neg (by decide), if_neg (by decide), if_neg (by decide), if_neg (by decide), if_neg (by decide), if_pos rfl]

theorem decodeBody_xd5 (f : Nat) (rest : List Nat) :
    decodeBody f 0xd5 rest = (readBytes 1 rest).bind fun t => (readBytes 2 t.2).map fun p =>
      (.ext (sintOf 1 (beVal t.1)) p.1, p.2) := by
  unfold decodeBody
  rw [if_neg (by decide), if_neg (by decide), if_neg (by decide), if_neg (by decide), if_neg (by decide), if_neg (by decide), if_neg (by decide), if_neg (by decide), if_neg (by decide), if_neg (by decide), if_neg (by decide), if_neg (by decide), if_neg (by decide), if_neg (by decide), if_neg (by decide), if_neg (by decide), if_neg (by decide), if_neg (by decide), if_neg (by decide), if_neg (by decide), if_neg (by decide), if_neg (by decide), if_neg (by decide), if_pos rfl]

theorem decodeBody_xd6 (f : Nat) (rest : List Nat) :
    decodeBody f 0xd6 rest = (readBytes 1 rest).bind fun t => (readBytes 4 t.2).map fun p =>
      (.ext (sintOf 1 (beVal t.1)) p.1, p.2) := by
  unfold decodeBody
  rw [if_neg (by decide), if_neg (by decide), if_neg (by decide), if_neg (by decide), if_neg (by decide), if_neg (by decide), if_neg (by decide), if_neg (by decide), if_neg (by decide), if_neg (by decide), if_neg (by decide), if_neg (by decide), if_neg (by decide), if_neg (by decide), if_neg (by decide), if_neg (by decide), if_neg (by decide), if_neg (by decide), if_neg (by decide), if_neg (by decide), if_neg (by decide), if_neg (by decide), if_neg (by decide), if_neg (by decide), if_pos rfl]

theorem decodeBody_xd7 (f : Nat) (rest : List Nat) :
    decodeBody f 0xd7 rest = (readBytes 1 rest).bind fun t => (readBytes 8 t.2).map fun p =>
      (.ext (sintOf 1 (beVal t.1)) p.1, p.2) := by
  unfold decodeBody
  rw [if_neg (by decide), if_neg (by decide), if_neg (by decide), if_neg (by decide), if_neg (by decide), if_neg (by decide), if_neg (by decide), if_neg (by decide), if_neg (by decide), if_neg (by decide), if_neg (by decide), if_neg (by decide), if_neg (by decide), if_neg (by decide), if_neg (by decide), if_neg (by decide), if_neg (by decide), if_neg (by decide), if_neg (by decide), if_neg (by decide), if_neg (by decide), if_neg (by decide), if_neg (by decide), if_neg (by decide), if_neg (by decide), if_pos rfl]

theorem decodeBody_xd8 (f : Nat) (rest : List Nat) :
    decodeBody f 0xd8 rest = (readBytes 1 rest).bind fun t => (readBytes 16 t.2).map fun p =>
      (.ext (sintOf 1 (beVal t.1)) p.1, p.2) := by
  unfold decodeBody
  rw [if_neg (by decide), if_neg (by decide), if_neg (by decide), if_neg (by decide), if_neg (by decide), if_neg (by decide), if_neg (by decide), if_neg (by decide), if_neg (by decide), if_neg (by decide), if_neg (by decide), if_neg (by decide), if_neg (by decide), if_neg (by decide), if_neg (by decide), if_neg (by decide), if_neg (by decide), if_neg (by decide), if_neg (by decide), if_neg (by decide), if_neg (by decide), if_neg (by decide), if_neg (by decide), if_neg (by decide), if_neg (by decide), if_neg (by decide), if_pos rfl]

theorem decodeBody_xd9 (f : Nat) (rest : List Nat) :
    decodeBody f 0xd9 rest = (readLenPayload 1 rest).map fun p => (.str p.1, p.2) := by
  unfold decodeBody
  rw [if_neg (by decide), if_neg (by decide), if_neg (by decide), if_neg (by decide), if_neg (by decide), if_neg (by decide), if_neg (by decide), if_neg (by decide), if_neg (by decide), if_neg (by decide), if_neg (by decide), if_neg (by decide), if_neg (by decide), if_neg (by decide), if_neg (by decide), if_neg (by decide), if_neg (by decide), if_neg (by decide), if_neg (by decide), if_neg (by decide), if_neg (by decide), if_neg (by decide), if_neg (by decide), if_neg (by decide), if_neg (by decide), if_neg (by decide), if_neg (by decide), if_pos rfl]

theorem decodeBody_xda (f : Nat) (rest : List Nat) :
    decodeBody f 0xda rest = (readLenPayload 2 rest).map fun p => (.str p.1, p.2) := by
  unfold decodeBody
  rw [if_neg (by decide), if_neg (by decide), if_neg (by decide), if_neg (by decide), if_neg (by decide), if_neg (by decide), if_neg (by decide), if_neg (by decide), if_neg (by decide), if_neg (by decide), if_neg (by decide), if_neg (by decide), if_neg (by decide), if_neg (by decide), if_neg (by decide), if_neg (by decide), if_neg (by decide), if_neg (by decide), if_neg (by decide), if_neg (by decide), if_neg (by decide), if_neg (by decide), if_neg (by decide), if_neg (by decide), if_neg (by decide), if_neg (by decide), if_neg (by decide), if_neg (by decide), if_pos rfl]

theorem decodeBody_xdb (f : Nat) (rest : List Nat) :
    decodeBody f 0xdb rest = (readLenPayload 4 rest).map fun p => (.str p.1, p.2) := by
  unfold decodeBody
  rw [if_neg (by decide), if_neg (by decide), if_neg (by decide), if_neg (by decide), if_neg (by decide), if_neg (by decide), if_neg (by decide), if_neg (by decide), if_neg (by decide), if_neg (by decide), if_neg (by decide), if_neg (by decide), if_neg (by decide), if_neg (by decide), if_neg (by decide), if_neg (by decide), if_neg (by decide), if_neg (by decide), if_neg (by decide), if_neg (by decide), if_neg (by decide), if_neg (by decide), if_neg (by decide), if_neg (by decide), if_neg (by decide), if_neg (by decide), if_neg (by decide), if_neg (by decide), if_neg (by decide), if_pos rfl]

theorem decodeBody_xdc (f : Nat) (rest : List Nat) :
    decodeBody f 0xdc rest = (readBytes 2 rest).bind fun n =>
      (decodeArrN f (beVal n.1) n.2).map fun q => (.arr q.1, q.2) := by
  unfold decodeBody
  rw [if_neg (by decide), if_neg (by decide), if_neg (by decide), if_neg (by decide), if_neg (by decide), if_neg (by decide), if_neg (by decide), if_neg (by decide), if_neg (by decide), if_neg (by decide), if_neg (by decide), if_neg (by decide), if_neg (by decide), if_neg (by decide), if_neg (by decide), if_neg (by decide), if_neg (by decide), if_neg (by decide), if_neg (by decide), if_neg (by decide), if_neg (by decide), if_neg (by decide), if_neg (by decide), if_neg (by decide), if_neg (by decide), if_neg (by decide), if_neg (by decide), if_neg (by decide), if_neg (by decide), if_neg (by decide), if_pos rfl]

theorem decodeBody_xdd (f : Nat) (rest : List Nat) :
    decodeBody f 0xdd rest = (readBytes 4 rest).bind fun n =>
      (decodeArrN f (beVal n.1) n.2).map fun q => (.arr q.1, q.2) := by
  unfold decodeBody
  rw [if_neg (by decide), if_neg (by decide), if_neg (by decide), if_neg (by decide), if_neg (by decide), if_neg (by decide), if_neg (by decide), if_neg (by decide), if_neg (by decide), if_neg (by decide), if_neg (by decide), if_neg (by decide), if_neg (by decide), if_neg (by decide), if_neg (by decide), if_neg (by decide), if_neg (by decide), if_neg (by decide), if_neg (by decide), if_neg (by decide), if_neg (by decide), if_neg (by decide), if_neg (by decide), if_neg (by decide), if_neg (by decide), if_neg (by decide), if_neg (by decide), if_neg (by decide), if_neg (by decide), if_neg (by decide), if_neg (by decide), if_pos rfl]

theorem decodeBody_xde (f : Nat) (rest : List Nat) :
    decodeBody f 0xde rest = (readBytes 2 rest).bind fun n =>
      (decodeMapN f (beVal n.1) n.2).map fun q => (.map q.1, q.2) := by
  unfold decodeBody
  rw [if_neg (by decide), if_neg (by decide), if_neg (by decide), if_neg (by decide), if_neg (by decide), if_neg (by decide), if_neg (by decide), if_neg (by decide), if_neg (by decide), if_neg (by decide), if_neg (by decide), if_neg (by decide), if_neg (by decide), if_neg (by decide), if_neg (by decide), if_neg (by decide), if_neg (by decide), if_neg (by decide), if_neg (by decide), if_neg (by decide), if_neg (by decide), if_neg (by decide), if_neg (by decide), if_neg (by decide), if_neg (by decide), if_neg (by decide), if_neg (by decide), if_neg (by decide), if_neg (by decide), if_neg (by decide), if_neg (by decide), if_neg (by decide), if_pos rfl]

theorem decodeBody_xdf (f : Nat) (rest : List Nat) :
    decodeBody f 0xdf rest = (readBytes 4 rest).bind fun n =>
      (decodeMapN f (beVal n.1) n.2).map fun q => (.map q.1, q.2) := by
  unfold decodeBody
  rw [if_neg (by decide), if_neg (by decide), if_neg (by decide), if_neg (by decide), if_neg (by decide), if_neg (by decide), if_neg (by decide), if_neg (by decide), if_neg (by decide), if_neg (by decide), if_neg (by decide), if_neg (by decide), if_neg (by decide), if_neg (by decide), if_neg (by decide), if_neg (by decide), if_neg (by decide), if_neg (by decide), if_neg (by decide), if_neg (by decide), if_neg (by decide), if_neg (by decide), if_neg (by decide), if_neg (by decide), if_neg (by decide), if_neg (by decide), if_neg (by decide), if_neg (by decide), if_neg (by decide), if_neg (by decide), if_neg (by decide), if_neg (by decide), if_neg (by decide), if_pos rfl]

theorem decodeBody_negfix (f b : Nat) (rest : List Nat) (h1 : 0xe0 ≤ b) (h2 : b ≤ 0xff) :
    decodeBody f b rest = some (.int ((b : Int) - 256), rest) := by
  unfold decodeBody
  rw [skipBranch (by omega), skipBranch (by omega), skipBranch (by omega), skipBranch (by omega), skipBranch (by omega), skipBranch (by omega), skipBranch (by omega), skipBranch (by omega), skipBranch (by omega), skipBranch (by omega), skipBranch (by omega), skipBranch (by omega), skipBranch (by omega), skipBranch (by omega), skipBranch (by omega), skipBranch (by omega), skipBranch (by omega), skipBranch (by omega), skipBranch (by omega), skipBranch (by omega), skipBranch (by omega), skipBranch (by omega), skipBranch (by omega), skipBranch (by omega), skipBranch (by omega), skipBranch (by omega), skipBranch (by omega), skipBranch (by omega), skipBranch (by omega), skipBranch (by omega), skipBranch (by omega), skipBranch (by omega), skipBranch (by omega), skipBranch (by omega), if_pos (by omega)]

theorem decodeMsg_cons (fuel b : Nat) (rest : List Nat) :
    decodeMsg (fuel + 1) (b :: rest) = decodeBody fuel b rest := by
  rw [decodeMsg]

theorem msgDepth_pos (v : Msg) : 1 ≤ msgDepth v := by
  cases v <;> simp [msgDepth]

theorem sintOf_one_lt (u : Nat) (h : u < 128) : sintOf 1 u = u := by
  rw [sintOf, if_pos (by norm_num; omega)]

theorem sintOf_one_ge (u : Nat) (h1 : 128 ≤ u) (h2 : u < 256) :
    sintOf 1 u = (u : Int) - 256 := by
  rw [sintOf, if_neg (by norm_num; omega)]
  norm_num

theorem sintOf_extTagByte (tag : Int) (h1 : -128 ≤ tag) (h2 : tag < 128) :
    sintOf 1 (extTagByte tag) = tag := by
  rw [extTagByte]
  by_cases h : 0 ≤ tag
  · have he : tag % 256 = tag := by omega
    rw [he, sintOf_one_lt _ (by omega)]
    omega
  · have he : tag % 256 = tag + 256 := by omega
    rw [he, sintOf_one_ge _ (by omega) (by omega)]
    omega

mutual

theorem decode_encodeMsg (v : Msg) : ∀ (f : Nat) (rest : List Nat),
    wfMsg v = true → msgDepth v ≤ f + 1 →
    decodeMsg (f + 1) (encodeMsg v ++ rest) = some (v, rest) := by
  cases v with
  | nil =>
    intro f rest _ _
    simp only [encodeMsg, List.cons_append, List.nil_append]
    rw [decodeMsg_cons, decodeBody_xc0]
  | bool b =>
    intro f rest _ _
    cases b
    · simp only [encodeMsg, List.cons_append, List.nil_append]
      rw [decodeMsg_cons, decodeBody_xc2]
    · simp only [encodeMsg, List.cons_append, List.nil_append]
      rw [decodeMsg_cons, decodeBody_xc3]
  | int i =>
    intro f rest hwf _
    simp only [wfMsg, Bool.and_eq_true, decide_eq_true_eq] at hwf
    obtain ⟨hlo, hhi⟩ := hwf
    simp only [encodeMsg, encodeInt]
    by_cases hpos : 0 ≤ i
    · rw [if_pos hpos]
      by_cases h1 : i.toNat < 0x80
      · rw [if_pos h1]
        simp only [List.cons_append, List.nil_append]
        rw [decodeMsg_cons, decodeBody_posfix _ _ _ (by omega)]
        have he : ((i.toNat : Nat) : Int) = i := by omega
        rw [he]
      · rw [if_neg h1]
        by_cases h2 : i.toNat < 0x100
        · rw [if_pos h2]
          simp only [List.cons_append, List.nil_append]
          rw [decodeMsg_cons, decodeBody_xcc, readBytes_one, Option.map_some', beVal_one]
          have he : ((i.toNat : Nat) : Int) = i := by omega
          rw [he]
        · rw [if_neg h2]
          by_cases h3 : i.toNat < 0x10000
          · rw [if_pos h3]
            simp only [List.cons_append, List.append_assoc]
            rw [decodeMsg_cons, decodeBody_xcd,
              readBytes_append _ _ _ (beBytes_length 2 _), Option.map_some',
              beVal_beBytes _ _ (by norm_num; omega)]
            have he : ((i.toNat : Nat) : Int) = i := by omega
            rw [he]
          · rw [if_neg h3]
            by_cases h4 : i.toNat < 0x100000000
            · rw [if_pos h4]
              simp only [List.cons_append, List.append_assoc]
              rw [decodeMsg_cons, decodeBody_xce,
                readBytes_append _ _ _ (beBytes_length 4 _), Option.map_some',
                beVal_beBytes _ _ (by norm_num; omega)]
              have he : ((i.toNat : Nat) : Int) = i := by omega
              rw [he]
            · rw [if_neg h4]
              simp only [List.cons_append, List.append_assoc]
              rw [decodeMsg_cons, decodeBody_xcf,
                readBytes_append _ _ _ (beBytes_length 8 _), Option.map_some',
                beVal_beBytes _ _ (by norm_num; omega)]
              have he : ((i.toNat : Nat) : Int) = i := by omega
              rw [he]
    · rw [if_neg hpos]
      by_cases g1 : -32 ≤ i
      · rw [if_pos g1]
        simp only [List.cons_append, List.nil_append]
        rw [decodeMsg_cons, decodeBody_negfix _ _ _ (by omega) (by omega)]
        have he : (((i + 256).toNat : Nat) : Int) - 256 = i := by omega
        rw [he]
      · rw [if_neg g1]
        by_cases g2 : -128 ≤ i
        · rw [if_pos g2]
          simp only [List.cons_append, List.nil_append]
          rw [decodeMsg_cons, decodeBody_xd0, readBytes_one, Option.map_some', beVal_one,
            sintOf_one_ge _ (by omega) (by omega)]
          have he : (((i + 256).toNat : Nat) : Int) - 256 = i := by omega
          rw [he]
        · rw [if_neg g2]
          by_cases g3 : -32768 ≤ i
          · rw [if_pos g3]
            simp only [List.cons_append, List.append_assoc]
            rw [decodeMsg_cons, decodeBody_xd1,
              readBytes_append _ _ _ (beBytes_length 2 _), Option.map_some',
              beVal_beBytes _ _ (by norm_num; omega), sintOf]
            rw [if_neg (by norm_num; omega)]
            have he : (((i + 65536).toNat : Nat) : Int) - 2 ^ (8 * 2) = i := by norm_num; omega
            rw [he]
          · rw [if_neg g3]
            by_cases g4 : -2147483648 ≤ i
            · rw [if_pos g4]
              simp only [List.cons_append, List.append_assoc]
              rw [decodeMsg_cons, decodeBody_xd2,
                readBytes_append _ _ _ (beBytes_length 4 _), Option.map_some',
                beVal_beBytes _ _ (by norm_num; omega), sintOf]
              rw [if_neg (by norm_num; omega)]
              have he : (((i + 4294967296).toNat : Nat) : Int) - 2 ^ (8 * 4) = i := by
                norm_num
                omega
              rw [he]
            · rw [if_neg g4]
              simp only [List.cons_append, List.append_assoc]
              rw [decodeMsg_cons, decodeBody_xd3,
                readBytes_append _ _ _ (beBytes_length 8 _), Option.map_some',
                beVal_beBytes _ _ (by norm_num; omega), sintOf]
              rw [if_neg (by norm_num; omega)]
              have he : (((i + 18446744073709551616).toNat : Nat) : Int) - 2 ^ (8 * 8) = i := by
                norm_num
                omega
              rw [he]
  | float bits =>
    intro f rest hwf _
    simp only [wfMsg, decide_eq_true_eq] at hwf
    simp only [encodeMsg, List.cons_append]
    rw [decodeMsg_cons, decodeBody_xcb,
      readBytes_append _ _ _ (beBytes_length 8 _), Option.map_some',
      beVal_beBytes _ _ (by norm_num; omega)]
  | str s =>
    intro f rest hwf _
    simp only [wfMsg, decide_eq_true_eq] at hwf
    simp only [encodeMsg]
    by_cases h1 : s.length < 32
    · rw [if_pos h1]
      simp only [List.cons_append]
      rw [decodeMsg_cons, decodeBody_fixstr _ _ _ (by omega) (by omega)]
      have hsub : 0xa0 + s.length - 0xa0 = s.length := by omega
      rw [hsub, readBytes_append _ _ _ rfl, Option.map_some']
    · rw [if_neg h1]
      by_cases h2 : s.length < 0x100
      · rw [if_pos h2]
        simp only [List.cons_append]
        rw [decodeMsg_cons, decodeBody_xd9, readLenPayload, readBytes_one,
          Option.some_bind, beVal_one, readBytes_append _ _ _ rfl, Option.map_some']
      · rw [if_neg h2]
        by_cases h3 : s.length < 0x10000
        · rw [if_pos h3]
          simp only [List.cons_append, List.append_assoc]
          rw [decodeMsg_cons, decodeBody_xda,
            readLenPayload_append 2 _ _ _ rfl (by norm_num; omega), Option.map_some']
        · rw [if_neg h3]
          simp only [List.cons_append, List.append_assoc]
          rw [decodeMsg_cons, decodeBody_xdb,
            readLenPayload_append 4 _ _ _ rfl (by norm_num; omega), Option.map_some']
  | bin b =>
    intro f rest hwf _
    simp only [wfMsg, decide_eq_true_eq] at hwf
    simp only [encodeMsg]
    by_cases h1 : b.length < 0x100
    · rw [if_pos h1]
      simp only [List.cons_append]
      rw [decodeMsg_cons, decodeBody_xc4, readLenPayload, readBytes_one,
        Option.some_bind, beVal_one, readBytes_append _ _ _ rfl, Option.map_some']
    · rw [if_neg h1]
      by_cases h2 : b.length < 0x10000
      · rw [if_pos h2]
        simp only [List.cons_append, List.append_assoc]
        rw [decodeMsg_cons, decodeBody_xc5,
          readLenPayload_append 2 _ _ _ rfl (by norm_num; omega), Option.map_some']
      · rw [if_neg h2]
        simp only [List.cons_append, List.append_assoc]
        rw [decodeMsg_cons, decodeBody_xc6,
          readLenPayload_append 4 _ _ _ rfl (by norm_num; omega), Option.map_some']
  | arr xs =>
    intro f rest hwf hd
    simp only [wfMsg, Bool.and_eq_true, decide_eq_true_eq] at hwf
    obtain ⟨hlen, hlist⟩ := hwf
    have hdep : msgDepthList xs ≤ f := by
      simp only [msgDepth] at hd
      omega
    simp only [encodeMsg]
    by_cases h1 : xs.length < 16
    · rw [if_pos h1]
      simp only [List.cons_append, List.nil_append]
      rw [decodeMsg_cons, decodeBody_fixarr _ _ _ (by omega) (by omega)]
      have hsub : 0x90 + xs.length - 0x90 = xs.length := by omega
      rw [hsub, decode_encodeArr xs f rest hlist hdep, Option.map_some']
    · rw [if_neg h1]
      by_cases h2 : xs.length < 0x10000
      · rw [if_pos h2]
        simp only [List.cons_append, List.append_assoc]
        rw [decodeMsg_cons, decodeBody_xdc,
          readBytes_append _ _ _ (beBytes_length 2 _), Option.some_bind,
          beVal_beBytes _ _ (by norm_num; omega),
          decode_encodeArr xs f rest hlist hdep, Option.map_some']
      · rw [if_neg h2]
        simp only [List.cons_append, List.append_assoc]
        rw [decodeMsg_cons, decodeBody_xdd,
          readBytes_append _ _ _ (beBytes_length 4 _), Option.some_bind,
          beVal_beBytes _ _ (by norm_num; omega),
          decode_encodeArr xs f rest hlist hdep, Option.map_some']
  | map kvs =>
    intro f rest hwf hd
    simp only [wfMsg, Bool.and_eq_true, decide_eq_true_eq] at hwf
    obtain ⟨hlen, hlist⟩ := hwf
    have hdep : msgDepthPairs kvs ≤ f := by
      simp only [msgDepth] at hd
      omega
    simp only [encodeMsg]
    by_cases h1 : kvs.length < 16
    · rw [if_pos h1]
      simp only [List.cons_append, List.nil_append]
      rw [decodeMsg_cons, decodeBody_fixmap _ _ _ (by omega) (by omega)]
      have hsub : 0x80 + kvs.length - 0x80 = kvs.length := by omega
      rw [hsub, decode_encodeMap kvs f rest hlist hdep, Option.map_some']
    · rw [if_neg h1]
      by_cases h2 : kvs.length < 0x10000
      · rw [if_pos h2]
        simp only [List.cons_append, List.append_assoc]
        rw [decodeMsg_cons, decodeBody_xde,
          readBytes_append _ _ _ (beBytes_length 2 _), Option.some_bind,
          beVal_beBytes _ _ (by norm_num; omega),
          decode_encodeMap kvs f rest hlist hdep, Option.map_some']
      · rw [if_neg h2]
        simp only [List.cons_append, List.append_assoc]
        rw [decodeMsg_cons, decodeBody_xdf,
          readBytes_append _ _ _ (beBytes_length 4 _), Option.some_bind,
          beVal_beBytes _ _ (by norm_num; omega),
          decode_encodeMap kvs f rest hlist hdep, Option.map_some']
  | ext tag data =>
    intro f rest hwf _
    simp only [wfMsg, Bool.and_eq_true, decide_eq_true_eq] at hwf
    obtain ⟨⟨htag1, htag2⟩, hlen⟩ := hwf
    simp only [encodeMsg, extHeader]
    by_cases h1 : data.length = 1
    · rw [if_pos h1]
      simp only [List.cons_append, List.nil_append]
      rw [decodeMsg_cons, decodeBody_xd4, readBytes_one, Option.some_bind,
        readBytes_append _ _ _ h1, Option.map_some', beVal_one,
        sintOf_extTagByte tag htag1 htag2]
    · rw [if_neg h1]
      by_cases h2 : data.length = 2
      · rw [if_pos h2]
        simp only [List.cons_append, List.nil_append]
        rw [decodeMsg_cons, decodeBody_xd5, readBytes_one, Option.some_bind,
          readBytes_append _ _ _ h2, Option.map_some', beVal_one,
          sintOf_extTagByte tag htag1 htag2]
      · rw [if_neg h2]
        by_cases h3 : data.length = 4
        · rw [if_pos h3]
          simp only [List.cons_append, List.nil_append]
          rw [decodeMsg_cons, decodeBody_xd6, readBytes_one, Option.some_bind,
            readBytes_append _ _ _ h3, Option.map_some', beVal_one,
            sintOf_extTagByte tag htag1 htag2]
        · rw [if_neg h3]
          by_cases h4 : data.length = 8
          · rw [if_pos h4]
            simp only [List.cons_append, List.nil_append]
            rw [decodeMsg_cons, decodeBody_xd7, readBytes_one, Option.some_bind,
              readBytes_append _ _ _ h4, Option.map_some', beVal_one,
              sintOf_extTagByte tag htag1 htag2]
          · rw [if_neg h4]
            by_cases h5 : data.length = 16
            · rw [if_pos h5]
              simp only [List.cons_append, List.nil_append]
              rw [decodeMsg_cons, decodeBody_xd8, readBytes_one, Option.some_bind,
                readBytes_append _ _ _ h5, Option.map_some', beVal_one,
                sintOf_extTagByte tag htag1 htag2]
            · rw [if_neg h5]
              by_cases h6 : data.length < 0x100
              · rw [if_pos h6]
                simp only [List.cons_append, List.nil_append]
                rw [decodeMsg_cons, decodeBody_xc7, readBytes_one, Option.some_bind,
                  readBytes_one, Option.some_bind, beVal_one, beVal_one,
                  readBytes_append _ _ _ rfl, Option.map_some',
                  sintOf_extTagByte tag htag1 htag2]
              · rw [if_neg h6]
                by_cases h7 : data.length < 0x10000
                · rw [if_pos h7]
                  simp only [List.cons_append, List.nil_append, List.append_assoc]
                  rw [decodeMsg_cons, decodeBody_xc8,
                    readBytes_append _ _ _ (beBytes_length 2 _), Option.some_bind,
                    readBytes_one, Option.some_bind, beVal_one,
                    beVal_beBytes _ _ (by norm_num; omega),
                    readBytes_append _ _ _ rfl, Option.map_some',
                    sintOf_extTagByte tag htag1 htag2]
                · rw [if_neg h7]
                  simp only [List.cons_append, List.nil_append, List.append_assoc]
                  rw [decodeMsg_cons, decodeBody_xc9,
                    readBytes_append _ _ _ (beBytes_length 4 _), Option.some_bind,
                    readBytes_one, Option.some_bind, beVal_one,
                    beVal_beBytes _ _ (by norm_num; omega),
                    readBytes_append _ _ _ rfl, Option.map_some',
                    sintOf_extTagByte tag htag1 htag2]
termination_by sizeOf v

theorem decode_encodeArr (xs : List Msg) : ∀ (fuel : Nat) (rest : List Nat),
    wfMsgList xs = true → msgDepthList xs ≤ fuel →
    decodeArrN fuel xs.length (encodeListMsg xs ++ rest) = some (xs, rest) := by
  cases xs with
  | nil =>
    intro fuel rest _ _
    simp only [encodeListMsg, List.nil_append, List.length_nil]
    rw [decodeArrN]
  | cons x xs =>
    intro fuel rest hwf hd
    simp only [wfMsgList, Bool.and_eq_true] at hwf
    obtain ⟨hx, hxs⟩ := hwf
    simp only [msgDepthList] at hd
    rw [Nat.max_le] at hd
    obtain ⟨hd1, hd2⟩ := hd
    obtain ⟨f, rfl⟩ : ∃ f, fuel = f + 1 := ⟨fuel - 1, by have := msgDepth_pos x; omega⟩
    simp only [encodeListMsg, List.append_assoc, List.length_cons]
    rw [decodeArrN, decode_encodeMsg x f (encodeListMsg xs ++ rest) hx hd1,
      Option.some_bind, decode_encodeArr xs (f + 1) rest hxs (by omega), Option.map_some']
termination_by sizeOf xs

theorem decode_encodeMap (kvs : List (Msg × Msg)) : ∀ (fuel : Nat) (rest : List Nat),
    wfMsgPairs kvs = true → msgDepthPairs kvs ≤ fuel →
    decodeMapN fuel kvs.length (encodePairsMsg kvs ++ rest) = some (kvs, rest) := by
  cases kvs with
  | nil =>
    intro fuel rest _ _
    simp only [encodePairsMsg, List.nil_append, List.length_nil]
    rw [decodeMapN]
  | cons p kvs =>
    obtain ⟨k, v⟩ := p
    intro fuel rest hwf hd
    simp only [wfMsgPairs, Bool.and_eq_true] at hwf
    obtain ⟨⟨hk, hv⟩, hkvs⟩ := hwf
    simp only [msgDepthPairs] at hd
    rw [Nat.max_le] at hd
    obtain ⟨hd0, hd2⟩ := hd
    rw [Nat.max_le] at hd0
    obtain ⟨hdk, hdv⟩ := hd0
    obtain ⟨f, rfl⟩ : ∃ f, fuel = f + 1 := ⟨fuel - 1, by have := msgDepth_pos k; omega⟩
    simp only [encodePairsMsg, List.append_assoc, List.length_cons]
    rw [decodeMapN, decode_encodeMsg k f _ hk hdk, Option.some_bind,
      decode_encodeMsg v f _ hv hdv, Option.some_bind,
      decode_encodeMap kvs (f + 1) rest hkvs (by omega), Option.map_some']
termination_by sizeOf kvs

end

mutual

theorem msgDepth_le_encode (v : Msg) : msgDepth v ≤ (encodeMsg v).length := by
  cases v with
  | nil => simp [msgDepth, encodeMsg]
  | bool b => cases b <;> simp [msgDepth, encodeMsg]
  | int i =>
    simp only [msgDepth, encodeMsg, encodeInt]
    split_ifs <;> simp [beBytes_length]
  | float bits => simp [msgDepth, encodeMsg, beBytes_length]
  | str s =>
    simp only [msgDepth, encodeMsg]
    split_ifs <;> simp [beBytes_length]
  | bin b =>
    simp only [msgDepth, encodeMsg]
    split_ifs <;> simp [beBytes_length]
  | arr xs =>
    have hb := msgDepthList_le_encode xs
    simp only [msgDepth, encodeMsg, List.length_append]
    have hh : 1 ≤ (if xs.length < 16 then [0x90 + xs.length]
        else if xs.length < 0x10000 then 0xdc :: beBytes 2 xs.length
        else 0xdd :: beBytes 4 xs.length).length := by
      split_ifs <;> simp
    omega
  | map kvs =>
    have hb := msgDepthPairs_le_encode kvs
    simp only [msgDepth, encodeMsg, List.length_append]
    have hh : 1 ≤ (if kvs.length < 16 then [0x80 + kvs.length]
        else if kvs.length < 0x10000 then 0xde :: beBytes 2 kvs.length
        else 0xdf :: beBytes 4 kvs.length).length := by
      split_ifs <;> simp
    omega
  | ext tag data =>
    simp only [msgDepth, encodeMsg, extHeader, List.length_append]
    split_ifs <;> simp [beBytes_length] <;> omega
termination_by sizeOf v

theorem msgDepthList_le_encode (xs : List Msg) :
    msgDepthList xs ≤ (encodeListMsg xs).length := by
  cases xs with
  | nil => simp [msgDepthList, encodeListMsg]
  | cons x xs =>
    have h1 := msgDepth_le_encode x
    have h2 := msgDepthList_le_encode xs
    simp only [msgDepthList, encodeListMsg, List.length_append]
    rw [Nat.max_le]
    omega
termination_by sizeOf xs

theorem msgDepthPairs_le_encode (kvs : List (Msg × Msg)) :
    msgDepthPairs kvs ≤ (encodePairsMsg kvs).length := by
  cases kvs with
  | nil => simp [msgDepthPairs, encodePairsMsg]
  | cons p kvs =>
    obtain ⟨k, v⟩ := p
    have h1 := msgDepth_le_encode k
    have h2 := msgDepth_le_encode v
    have h3 := msgDepthPairs_le_encode kvs
    simp only [msgDepthPairs, encodePairsMsg, List.length_append]
    rw [Nat.max_le, Nat.max_le]
    omega
termination_by sizeOf kvs

end

theorem serializeList_length (xs : List PyValue) :
    (serializeList xs).length = xs.length := by
  induction xs with
  | nil => rfl
  | cons x t ih => simp [serializeList, ih]

theorem serializePairs_length (kvs : List (PyValue × PyValue)) :
    (serializePairs kvs).length = kvs.length := by
  induction kvs with
  | nil => rfl
  | cons p t ih =>
    obtain ⟨k, v⟩ := p
    simp [serializePairs, ih]

mutual

theorem wfMsg_serializeValue (x : PyValue) (h : wfValue x = true) :
    wfMsg (serializeValue x) = true := by
  cases x with
  | pynone => rfl
  | pybool b => rfl
  | pyint i => simpa [wfValue, serializeValue, wfMsg] using h
  | pystr s => simpa [wfValue, serializeValue, wfMsg] using h
  | pybytes b => simpa [wfValue, serializeValue, wfMsg] using h
  | pyfloat bits => simpa [wfValue, serializeValue, wfMsg] using h
  | pyuuid b =>
    simp only [wfValue, decide_eq_true_eq] at h
    simp [serializeValue, wfMsg, h]
  | duration bits =>
    simp [serializeValue, wfMsg, encodeMsg, beBytes_length]
  | datetime p => simpa [wfValue, serializeValue, wfMsg] using h
  | depRef b =>
    simp only [wfValue, decide_eq_true_eq] at h
    simp [serializeValue, wfMsg, h]
  | depRefs bs =>
    simp only [wfValue, Bool.and_eq_true, decide_eq_true_eq, List.all_eq_true] at h
    obtain ⟨hcount, hall⟩ := h
    simp only [serializeValue, wfMsg, Bool.and_eq_true, decide_eq_true_eq]
    refine ⟨⟨by norm_num, by norm_num⟩, ?_⟩
    rw [flatten_length_16 bs (fun b hb => by simpa using hall b hb)]
    omega
  | pylist xs =>
    simp only [wfValue, Bool.and_eq_true, decide_eq_true_eq] at h
    obtain ⟨hlen, hlist⟩ := h
    simp only [serializeValue, wfMsg, Bool.and_eq_true, decide_eq_true_eq]
    exact ⟨by rw [serializeList_length]; exact hlen, wfMsgList_serializeList xs hlist⟩
  | pydict kvs =>
    simp only [wfValue, Bool.and_eq_true, decide_eq_true_eq] at h
    obtain ⟨hlen, hlist⟩ := h
    simp only [serializeValue, wfMsg, Bool.and_eq_true, decide_eq_true_eq]
    exact ⟨by rw [serializePairs_length]; exact hlen, wfMsgPairs_serializePairs kvs hlist⟩
termination_by sizeOf x

theorem wfMsgList_serializeList (xs : List PyValue) (h : wfValueList xs = true) :
    wfMsgList (serializeList xs) = true := by
  cases xs with
  | nil => rfl
  | cons x t =>
    simp only [wfValueList, Bool.and_eq_true] at h
    simp only [serializeList, wfMsgList, Bool.and_eq_true]
    exact ⟨wfMsg_serializeValue x h.1, wfMsgList_serializeList t h.2⟩
termination_by sizeOf xs

theorem wfMsgPairs_serializePairs : ∀ (kvs : List (PyValue × PyValue)),
    wfValuePairs kvs = true → wfMsgPairs (serializePairs kvs) = true
  | [], _ => rfl
  | (k, v) :: t, h => by
    simp only [wfValuePairs, Bool.and_eq_true] at h
    simp only [serializePairs, wfMsgPairs, Bool.and_eq_true]
    exact ⟨⟨wfMsg_serializeValue k h.1.1, wfMsg_serializeValue v h.1.2⟩,
      wfMsgPairs_serializePairs t h.2⟩
termination_by kvs => sizeOf kvs

end

mutual

theorem deserialize_serializeValue (x : PyValue) (h : wfValue x = true) :
    deserializeValue (serializeValue x) = some x := by
  cases x with
  | pynone => rfl
  | pybool b => rfl
  | pyint i => rfl
  | pystr s => rfl
  | pybytes b => rfl
  | pyfloat bits => rfl
  | pyuuid b =>
    simp only [wfValue, decide_eq_true_eq] at h
    simp [serializeValue, deserializeValue, h]
  | duration bits =>
    simp only [wfValue, decide_eq_true_eq] at h
    simp only [serializeValue]
    rw [deserializeValue, if_neg (by norm_num), if_pos rfl]
    have hlen9 : (encodeMsg (Msg.float bits)).length = 9 := by
      simp [encodeMsg, beBytes_length]
    have hdec : decodeMsg ((encodeMsg (Msg.float bits)).length + 1)
        (encodeMsg (Msg.float bits)) = some (Msg.float bits, []) := by
      rw [hlen9]
      have hh := decode_encodeMsg (Msg.float bits) 9 []
        (by simpa [wfMsg] using h) (by simp [msgDepth])
      simpa using hh
    rw [hdec]
  | datetime p =>
    simp only [serializeValue]
    rw [deserializeValue, if_neg (by norm_num), if_neg (by norm_num),
      if_neg (by norm_num), if_neg (by norm_num), if_pos rfl]
  | depRef b =>
    simp only [wfValue, decide_eq_true_eq] at h
    simp only [serializeValue]
    rw [deserializeValue, if_neg (by norm_num), if_neg (by norm_num), if_pos rfl, if_pos h]
  | depRefs bs =>
    simp only [wfValue, Bool.and_eq_true, decide_eq_true_eq, List.all_eq_true] at h
    obtain ⟨hcount, hall⟩ := h
    have hall16 : ∀ b ∈ bs, b.length = 16 := fun b hb => by simpa using hall b hb
    simp only [serializeValue]
    rw [deserializeValue, if_neg (by norm_num), if_neg (by norm_num), if_neg (by norm_num),
      if_pos rfl, if_pos (by rw [flatten_length_16 bs hall16]; omega),
      chunk16_flatten bs hall16]
  | pylist xs =>
    simp only [wfValue, Bool.and_eq_true, decide_eq_true_eq] at h
    simp only [serializeValue, deserializeValue]
    rw [deserializeList_serializeList xs h.2, Option.map_some']
  | pydict kvs =>
    simp only [wfValue, Bool.and_eq_true, decide_eq_true_eq] at h
    simp only [serializeValue, deserializeValue]
    rw [deserializePairs_serializePairs kvs h.2, Option.map_some']
termination_by sizeOf x

theorem deserializeList_serializeList (xs : List PyValue) (h : wfValueList xs = true) :
    deserializeList (serializeList xs) = some xs := by
  cases xs with
  | nil => rfl
  | cons x t =>
    simp only [wfValueList, Bool.and_eq_true] at h
    simp only [serializeList, deserializeList]
    rw [deserialize_serializeValue x h.1, Option.some_bind,
      deserializeList_serializeList t h.2, Option.map_some']
termination_by sizeOf xs

theorem deserializePairs_serializePairs : ∀ (kvs : List (PyValue × PyValue)),
    wfValuePairs kvs = true → deserializePairs (serializePairs kvs) = some kvs
  | [], _ => rfl
  | (k, v) :: t, h => by
    simp only [wfValuePairs, Bool.and_eq_true] at h
    simp only [serializePairs, deserializePairs]
    rw [deserialize_serializeValue k h.1.1, Option.some_bind,
      deserialize_serializeValue v h.1.2, Option.some_bind,
      deserializePairs_serializePairs t h.2, Option.map_some']
termination_by kvs => sizeOf kvs

end

/-- C9: for every supported, well-formed value the codec round-trips:
unpacking the packed bytes returns the value unchanged, covering the
message pack scalars, UUIDs (extension tag 0), timedeltas (tag 1, seconds as
a double), dependency references (tags 2 and 3), datetimes (the native
timestamp extension) and maps with non-string keys. -/
theorem codec_round_trip (x : PyValue) (h : wfValue x = true) :
    codecFromBytes (codecToBytes x) = some x := by
  rw [codecToBytes, codecFromBytes]
  have hwfm := wfMsg_serializeValue x h
  have hdep : msgDepth (serializeValue x) ≤ (encodeMsg (serializeValue x)).length + 1 := by
    have hl := msgDepth_le_encode (serializeValue x)
    omega
  have hdec := decode_encodeMsg (serializeValue x)
    (encodeMsg (serializeValue x)).length [] hwfm hdep
  rw [List.append_nil] at hdec
  rw [hdec]
  exact deserialize_serializeValue x h

/-- C9 witness: the round trip evaluated on a dict with a non-string key
whose value holds one value of every supported shape. -/
theorem codec_round_trip_witness :
    wfValue (PyValue.pydict [(.pyint 3, .pylist
      [.pyuuid [0, 1, 2, 3, 4, 5, 6, 7, 8, 9, 10, 11, 12, 13, 14, 15],
       .duration 4638387860618067575,
       .datetime [104, 22, 77, 2],
       .depRef [9, 9, 9, 9, 9, 9, 9, 9, 9, 9, 9, 9, 9, 9, 9, 9],
       .depRefs [[0, 0, 0, 0, 0, 0, 0, 0, 0, 0, 0, 0, 0, 0, 0, 1],
                 [0, 0, 0, 0, 0, 0, 0, 0, 0, 0, 0, 0, 0, 0, 0, 2]],
       .pystr [104, 105],
       .pybytes [0, 255],
       .pyfloat 123,
       .pybool true,
       .pynone,
       .pyint (-1000)])]) = true ∧
    codecFromBytes (codecToBytes (PyValue.pydict [(.pyint 3, .pylist
      [.pyuuid [0, 1, 2, 3, 4, 5, 6, 7, 8, 9, 10, 11, 12, 13, 14, 15],
       .duration 4638387860618067575,
       .datetime [104, 22, 77, 2],
       .depRef [9, 9, 9, 9, 9, 9, 9, 9, 9, 9, 9, 9, 9, 9, 9, 9],
       .depRefs [[0, 0, 0, 0, 0, 0, 0, 0, 0, 0, 0, 0, 0, 0, 0, 1],
                 [0, 0, 0, 0, 0, 0, 0, 0, 0, 0, 0, 0, 0, 0, 0, 2]],
       .pystr [104, 105],
       .pybytes [0, 255],
       .pyfloat 123,
       .pybool true,
       .pynone,
       .pyint (-1000)])])) = some (PyValue.pydict [(.pyint 3, .pylist
      [.pyuuid [0, 1, 2, 3, 4, 5, 6, 7, 8, 9, 10, 11, 12, 13, 14, 15],
       .duration 4638387860618067575,
       .datetime [104, 22, 77, 2],
       .depRef [9, 9, 9, 9, 9, 9, 9, 9, 9, 9, 9, 9, 9, 9, 9, 9],
       .depRefs [[0, 0, 0, 0, 0, 0, 0, 0, 0, 0, 0, 0, 0, 0, 0, 1],
                 [0, 0, 0, 0, 0, 0, 0, 0, 0, 0, 0, 0, 0, 0, 0, 2]],
       .pystr [104, 105],
       .pybytes [0, 255],
       .pyfloat 123,
       .pybool true,
       .pynone,
       .pyint (-1000)])]) := by
  refine ⟨by decide, ?_⟩
  exact codec_round_trip _ (by decide)

end Mycelia
